import Mathlib

/-!
Verification model of the bills_analysis orchestration core
(batch lifecycle, task queue, worker loop, review-row normalization,
per-file processing aggregation, and merge dispatch), shallowly embedded
from `src/bills_analysis`.

Python dynamic values (`dict[str, Any]` payloads, review rows, artifacts)
are embedded as a JSON-like inductive `JVal`; Python dicts become
association lists with first-match lookup and in-place replacement on
key update, mirroring `dict.get` / `dict.__setitem__` / `dict.update`.
-/

set_option maxHeartbeats 1000000

namespace BillsAnalysis

/-- JSON-like dynamic value, the embedding of Python `Any` payloads. -/
inductive JVal where
  | null : JVal
  | bool (b : Bool) : JVal
  | num (n : Int) : JVal
  | str (s : String) : JVal
  | obj (fields : List (String × JVal)) : JVal
  | arr (elems : List JVal) : JVal

/-- Python truthiness of a value (`bool(x)`): `None`, `""`, `0`, `{}`, `[]`, `False` are falsy. -/
def pyTruthy : JVal → Bool
  | .null => false
  | .bool b => b
  | .num n => n != 0
  | .str s => s != ""
  | .obj fields => !fields.isEmpty
  | .arr elems => !elems.isEmpty

/-- Python truthiness of `dict.get` results: a missing key yields `None`, which is falsy. -/
def pyTruthyOpt : Option JVal → Bool
  | none => false
  | some v => pyTruthy v

/-- Python `a or b` over optional dynamic values: first operand if truthy, else second. -/
def pyOr (a : Option JVal) (b : JVal) : JVal :=
  match a with
  | some v => if pyTruthy v then v else b
  | none => b

mutual

/-- Python `repr()` of a value (used inside containers by `str()`). -/
def pyRepr : JVal → String
  | .null => "None"
  | .bool true => "True"
  | .bool false => "False"
  | .num n => toString n
  | .str s => "\x27" ++ s ++ "\x27"
  | .obj fields => "\x7b" ++ pyReprFields fields ++ "\x7d"
  | .arr elems => "[" ++ pyReprElems elems ++ "]"

/-- `repr()` of a dict body, comma-separated `key: value` pairs. -/
def pyReprFields : List (String × JVal) → String
  | [] => ""
  | [(k, v)] => "\x27" ++ k ++ "\x27: " ++ pyRepr v
  | (k, v) :: rest => "\x27" ++ k ++ "\x27: " ++ pyRepr v ++ ", " ++ pyReprFields rest

/-- `repr()` of a list body, comma-separated elements. -/
def pyReprElems : List JVal → String
  | [] => ""
  | [v] => pyRepr v
  | v :: rest => pyRepr v ++ ", " ++ pyReprElems rest

end

/-- Python `str()` of a value: identity on strings, `repr`-style otherwise. -/
def pyStr : JVal → String
  | .str s => s
  | v => pyRepr v

/-- Python `str.lower()` — ASCII case folding over the character data
(kernel-reducible, unlike `String.toLower`). -/
def pyLower (s : String) : String :=
  String.mk (s.data.map Char.toLower)

/-- Python `str.strip()` — drop whitespace from both ends of the character
data (kernel-reducible, unlike `String.trim`). -/
def pyStrip (s : String) : String :=
  String.mk (((s.data.dropWhile Char.isWhitespace).reverse.dropWhile
    Char.isWhitespace).reverse)

/-- Association-list lookup (first match), the embedding of keyed `get` for
Python dicts and of the in-memory repository / filesystem maps. -/
def assocGet {α : Type} : List (String × α) → String → Option α
  | [], _ => none
  | (k, v) :: rest, key => if k = key then some v else assocGet rest key

/-- Association-list write: replace the existing binding in place, else
append — Python `d[key] = value`. -/
def assocSet {α : Type} : List (String × α) → String → α → List (String × α)
  | [], key, value => [(key, value)]
  | (k, v) :: rest, key, value =>
      if k = key then (k, value) :: rest else (k, v) :: assocSet rest key value

/-- Python `dict.get(key)`. -/
def dictGet (d : List (String × JVal)) (key : String) : Option JVal :=
  assocGet d key

/-- Python `d[key] = value`. -/
def dictSet (d : List (String × JVal)) (key : String) (value : JVal) :
    List (String × JVal) :=
  assocSet d key value

/-- Python `d.update(other)`: set every binding of `other` into `d`, in order. -/
def dictUpdate (d other : List (String × JVal)) : List (String × JVal) :=
  other.foldl (fun acc p => dictSet acc p.1 p.2) d

/-- `models/enums.py BatchType`. -/
inductive BatchType where
  | daily : BatchType
  | office : BatchType
  deriving DecidableEq, Repr

/-- `models/enums.py BatchStatus`. -/
inductive BatchStatus where
  | queued : BatchStatus
  | running : BatchStatus
  | review_ready : BatchStatus
  | merging : BatchStatus
  | merged : BatchStatus
  | failed : BatchStatus
  deriving DecidableEq, Repr

/-- `models/enums.py TaskType`. -/
inductive TaskType where
  | process_batch : TaskType
  | merge_batch : TaskType
  deriving DecidableEq, Repr

/-- `models/common.py InputFile`: `path` (non-empty in practice) and optional category. -/
structure InputFile where
  path : String
  category : Option String := none

/-- `models/internal.py BatchRecord`. The wall-clock fields `created_at` /
`updated_at` are elided: no claim under verification mentions them, and every
operation of the source sets `updated_at = datetime.now(UTC)` on mutation. -/
structure BatchRecord where
  batch_id : String
  batch_type : BatchType
  status : BatchStatus
  run_date : Option String := none
  inputs : List InputFile := []
  metadata : List (String × JVal) := []
  artifacts : List (String × JVal) := []
  review_rows : List JVal := []
  merge_output : List (String × JVal) := []
  error : Option String := none

/-- `models/internal.py QueueTask` (`created_at` elided as above). -/
structure QueueTask where
  task_id : String
  batch_id : String
  task_type : TaskType
  payload : List (String × JVal) := []

/-- `models/api_requests.py CreateBatchRequest`. -/
structure CreateBatchRequest where
  type : BatchType
  run_date : Option String := none
  inputs : List InputFile
  metadata : List (String × JVal) := []

/-- `models/api_requests.py MergeRequest.mode`, a `Literal["overwrite","append"]`. -/
inductive MergeMode where
  | overwrite : MergeMode
  | append : MergeMode
  deriving DecidableEq, Repr

/-- The string value of a merge mode, as serialized by `model_dump()`. -/
def MergeMode.toStr : MergeMode → String
  | .overwrite => "overwrite"
  | .append => "append"

/-- `models/api_requests.py MergeRequest`. -/
structure MergeRequest where
  mode : MergeMode := .overwrite
  monthly_excel_path : Option String := none
  metadata : List (String × JVal) := []

/-- Embed an optional Python string (`str | None`) as a dynamic value. -/
def jOfOptStr : Option String → JVal
  | none => .null
  | some s => .str s

/-- `BatchRecord.new`: initial QUEUED record from a create request. `uuid4()`
is modelled by the caller-supplied fresh id `newId`. -/
def BatchRecord.new (req : CreateBatchRequest) (newId : String) : BatchRecord :=
  { batch_id := newId
    batch_type := req.type
    status := .queued
    run_date := req.run_date
    inputs := req.inputs
    metadata := req.metadata }

/-- The orchestration core's mutable world: the in-memory repository
(`integrations/in_memory.py InMemoryBatchRepository._items`), the FIFO task
queue (`InMemoryTaskQueue._queue`), and the artifact filesystem as a map from
path to written text content. -/
structure SysState where
  repo : List (String × BatchRecord) := []
  queue : List QueueTask := []
  fs : List (String × String) := []

/-- `repo.get(batch_id)`. -/
def repoGet (st : SysState) (batchId : String) : Option BatchRecord :=
  assocGet st.repo batchId

/-- `repo.create` / `repo.save`: both upsert the full record keyed by id. -/
def repoSave (st : SysState) (batch : BatchRecord) : SysState :=
  { st with repo := assocSet st.repo batch.batch_id batch }

/-- `queue.enqueue(task)`: FIFO append. -/
def enqueue (st : SysState) (task : QueueTask) : SysState :=
  { st with queue := st.queue ++ [task] }

/-- `Path.write_text`: record the full new content at the path. -/
def fsWrite (st : SysState) (path content : String) : SysState :=
  { st with fs := assocSet st.fs path content }

mutual

/-- Deterministic serialization of a value, the embedding of
`json.dumps(value, ensure_ascii=False, indent=2)`. The byte-identity claims
compare two serializations of equal values with each other, so the exact
whitespace layout of `indent=2` is irrelevant; the model keeps the renderer
total and deterministic. -/
def jsonOfVal : JVal → String
  | .null => "null"
  | .bool true => "true"
  | .bool false => "false"
  | .num n => toString n
  | .str s => "\x22" ++ s ++ "\x22"
  | .obj fields => "\x7b" ++ jsonOfFields fields ++ "\x7d"
  | .arr elems => "[" ++ jsonOfElems elems ++ "]"

/-- Serialize a dict body. -/
def jsonOfFields : List (String × JVal) → String
  | [] => ""
  | [(k, v)] => "\x22" ++ k ++ "\x22: " ++ jsonOfVal v
  | (k, v) :: rest => "\x22" ++ k ++ "\x22: " ++ jsonOfVal v ++ ", " ++ jsonOfFields rest

/-- Serialize a list body. -/
def jsonOfElems : List JVal → String
  | [] => ""
  | [v] => jsonOfVal v
  | v :: rest => jsonOfVal v ++ ", " ++ jsonOfElems rest

end

/-- `f"row-\x7bindex:04d\x7d"`: decimal digits zero-padded to width at least 4. -/
def rowIdFor (index : Nat) : String :=
  let digits := toString index
  "row-" ++ String.mk (List.replicate (4 - digits.length) '0') ++ digits

/-- Membership of a `dict.get` result in the Python tuple `(None, "", "None")`;
a missing key yields `None` and therefore matches. -/
def isEmptyLike : Option JVal → Bool
  | none => true
  | some .null => true
  | some (.str s) => s == "" || s == "None"
  | some _ => false

/-- Membership of a present value in `(None, "", "None")`. -/
def isEmptySentinel : JVal → Bool
  | .null => true
  | .str s => s == "" || s == "None"
  | _ => false

/-- The `run_date` backfill of `_normalize_review_rows`:
`if run_date and result.get("run_date") in (None, "", "None"): result["run_date"] = run_date`. -/
def backfillRunDate (runDate : Option String) (result0 : List (String × JVal)) :
    List (String × JVal) :=
  match runDate with
  | some rd =>
      if rd != "" && isEmptyLike (dictGet result0 "run_date") then
        dictSet result0 "run_date" (.str rd)
      else result0
  | none => result0

/-- The `meaningful_keys` comprehension of `_normalize_review_rows`: bindings
other than `run_date` whose value is outside `(None, "", "None")`. -/
def meaningfulFields (result : List (String × JVal)) : List (String × JVal) :=
  result.filter (fun p => p.1 != "run_date" && !isEmptySentinel p.2)

/-- One iteration of `BatchService._normalize_review_rows` for the row at
1-based position `index`: id assignment, category/filename validation,
`result` object requirement, `run_date` backfill, business-field requirement,
and canonical reshaping.  Raising `ValueError` is embedded as `Except.error`
of the message. -/
def normalizeRow (runDate : Option String) (index : Nat) (row : JVal) :
    Except String JVal :=
  match row with
  | .obj fields =>
      let row_id := pyStr (pyOr (dictGet fields "row_id") (.str (rowIdFor index)))
      let category := pyLower (pyStrip (pyStr (pyOr (dictGet fields "category") (.str ""))))
      let filename := pyStrip (pyStr (pyOr (dictGet fields "filename") (.str "")))
      if !(category == "bar" || category == "zbon" || category == "office") then
        .error ("row[" ++ toString index ++ "] category must be one of bar/zbon/office")
      else if filename == "" then
        .error ("row[" ++ toString index ++ "] filename is required")
      else
        match dictGet fields "result" with
        | some (.obj result0) =>
            let result1 := backfillRunDate runDate result0
            let meaningful := meaningfulFields result1
            if meaningful.isEmpty then
              .error ("row[" ++ toString index ++
                "] result must include non-empty business fields in canonical shape " ++
                "\x7brow_id,category,filename,result,score,preview_path\x7d")
            else
              let score :=
                match dictGet fields "score" with
                | some (.obj s) => s
                | _ => []
              let preview :=
                match dictGet fields "preview_path" with
                | some v => v
                | none => .null
              .ok (.obj [("row_id", .str row_id), ("category", .str category),
                         ("filename", .str filename), ("result", .obj result1),
                         ("score", .obj score), ("preview_path", preview)])
        | _ =>
            .error ("row[" ++ toString index ++
              "] result must be an object in canonical shape " ++
              "\x7brow_id,category,filename,result,score,preview_path\x7d")
  | _ => .error "each review row must be an object"

/-- The `enumerate(rows, start=1)` loop of `_normalize_review_rows`, carrying
the running 1-based index; the first raised error aborts the whole list. -/
def normalizeRowsFrom (runDate : Option String) (index : Nat) :
    List JVal → Except String (List JVal)
  | [] => .ok []
  | row :: rest =>
      match normalizeRow runDate index row with
      | .error e => .error e
      | .ok r =>
          match normalizeRowsFrom runDate (index + 1) rest with
          | .error e => .error e
          | .ok rs => .ok (r :: rs)

/-- `BatchService._normalize_review_rows(rows, run_date=...)`. -/
def normalize_review_rows (rows : List JVal) (runDate : Option String) :
    Except String (List JVal) :=
  normalizeRowsFrom runDate 1 rows

/-- `Path(p).parent` as a string: everything before the final separator,
`"."` when there is none. -/
def dirName (p : String) : String :=
  if p.data.contains '/' then
    String.mk (((p.data.reverse.dropWhile (fun c => c ≠ '/')).drop 1).reverse)
  else "."

/-- Target path selection of `_persist_review_rows_artifact`: the
`review_json_path` artifact when it is a string with non-blank strip, else
`outputs/webapp/<batch_id>/review_rows.json`. -/
def reviewTargetPath (batch : BatchRecord) : String :=
  match dictGet batch.artifacts "review_json_path" with
  | some (.str s) =>
      if pyStrip s != "" then s
      else "outputs/webapp/" ++ batch.batch_id ++ "/review_rows.json"
  | _ => "outputs/webapp/" ++ batch.batch_id ++ "/review_rows.json"

/-- Serialized content written for a review-row list. -/
def jsonOfRows (rows : List JVal) : String :=
  jsonOfVal (.arr rows)

/-- `BatchService.save_review`: load, normalize, replace `review_rows`,
persist the working file and the submission snapshot, save the record.
A missing batch raises `KeyError`, a rejected row raises `ValueError`;
both leave the state untouched. -/
def save_review (st : SysState) (batchId : String) (rows : List JVal) :
    SysState × Except String BatchRecord :=
  match repoGet st batchId with
  | none => (st, .error ("KeyError: " ++ batchId))
  | some batch =>
      match normalize_review_rows rows batch.run_date with
      | .error e => (st, .error e)
      | .ok normalized =>
          let batch1 := { batch with review_rows := normalized }
          let target := reviewTargetPath batch1
          let content := jsonOfRows normalized
          let st1 := fsWrite st target content
          let st2 := fsWrite st1 (dirName target ++ "/review_rows_submitted.json") content
          (repoSave st2 batch1, .ok batch1)

/-- `BatchService.save_merge_source_local`: record the uploaded monthly Excel
source path under the `monthly_excel_path` artifact key. -/
def save_merge_source_local (st : SysState) (batchId path : String) :
    SysState × Except String BatchRecord :=
  match repoGet st batchId with
  | none => (st, .error ("KeyError: " ++ batchId))
  | some batch =>
      let batch1 :=
        { batch with artifacts := dictSet batch.artifacts "monthly_excel_path" (.str path) }
      (repoSave st batch1, .ok batch1)

/-- The resolution `req.monthly_excel_path or batch.artifacts.get("monthly_excel_path")`
inside `request_merge`. -/
def resolveMonthly (batch : BatchRecord) (req : MergeRequest) : JVal :=
  let fromReq := jOfOptStr req.monthly_excel_path
  if pyTruthy fromReq then fromReq
  else
    match dictGet batch.artifacts "monthly_excel_path" with
    | some v => v
    | none => .null

/-- `MergeRequest.model_dump()` as the merge task payload skeleton. -/
def mergeRequestDump (req : MergeRequest) : List (String × JVal) :=
  [("mode", .str req.mode.toStr),
   ("monthly_excel_path", jOfOptStr req.monthly_excel_path),
   ("metadata", .obj req.metadata)]

/-- `BatchService.request_merge`: resolve the monthly source (request value,
else uploaded artifact; `ValueError` when neither is truthy, before any
mutation), then set status MERGING, save, and enqueue one MERGE_BATCH task
whose payload carries the resolved path.  `uuid4()` for the task id is the
caller-supplied `newTaskId`. -/
def request_merge (st : SysState) (batchId : String) (req : MergeRequest)
    (newTaskId : String) : SysState × Except String QueueTask :=
  match repoGet st batchId with
  | none => (st, .error ("KeyError: " ++ batchId))
  | some batch =>
      let resolved := resolveMonthly batch req
      if !pyTruthy resolved then
        (st, .error "monthly_excel_path is required or upload via /merge-source/local first")
      else
        let payload := dictSet (mergeRequestDump req) "monthly_excel_path" resolved
        let task : QueueTask :=
          { task_id := newTaskId
            batch_id := batchId
            task_type := .merge_batch
            payload := payload }
        let batch1 := { batch with status := .merging }
        (enqueue (repoSave st batch1) task, .ok task)

/-- Fault injection for the two port calls inside `create_batch_with_task`:
the service awaits `repo.create(batch)` and then `queue.enqueue(task)` with no
rollback, so a raising port implementation determines which effects persist.
The bundled in-memory ports never raise (`noFault`). -/
inductive PortFault where
  | noFault : PortFault
  | createFault : PortFault
  | enqueueFault : PortFault
  deriving DecidableEq, Repr

/-- `BatchService.create_batch_with_task`: build the QUEUED record and its
PROCESS_BATCH task, `repo.create` first, `queue.enqueue` second.  `none`
models the exception propagating to the caller; the state component carries
exactly the effects performed before the raise. -/
def create_batch_with_task (st : SysState) (req : CreateBatchRequest)
    (newBatchId newTaskId : String) (fault : PortFault) :
    SysState × Option (BatchRecord × QueueTask) :=
  let batch := BatchRecord.new req newBatchId
  let task : QueueTask :=
    { task_id := newTaskId, batch_id := batch.batch_id, task_type := .process_batch }
  match fault with
  | .createFault => (st, none)
  | .enqueueFault => (repoSave st batch, none)
  | .noFault => (enqueue (repoSave st batch) task, some (batch, task))

/-- `integrations/local_backend.py LocalPipelineBackend` configuration: output
root and the per-file timeout.  `file_timeout_sec` is a float read from
`BACKEND_FILE_TIMEOUT_SEC` (default `180`); only its decimal rendering inside
the timeout message matters to the claims, so the model carries that
rendering. -/
structure BackendConfig where
  root : String := "outputs/webapp"
  file_timeout_repr : String := "180.0"

/-- `self.root / batch.batch_id`. -/
def outDir (cfg : BackendConfig) (batch : BatchRecord) : String :=
  cfg.root ++ "/" ++ batch.batch_id

/-- One per-file row dict as built by `_process_one_file` /
`_process_one_file_async`: a structure with `Option` fields embeds the
optional dict keys (`preview_path`, the four error keys). -/
structure FileRow where
  row_id : String
  filename : String
  category : String
  result : List (String × JVal) := []
  score : List (String × JVal) := []
  preview_path : Option String := none
  error : Option String := none
  archive_error : Option String := none
  extract_error : Option String := none
  semantic_error : Option String := none

/-- Truthiness of an optional error string (`bool(row.get(k))`), where a
present empty string is falsy. -/
def truthyOptStr : Option String → Bool
  | none => false
  | some s => s != ""

/-- `LocalPipelineBackend._row_has_external_failure`. -/
def row_has_external_failure (row : FileRow) : Bool :=
  truthyOptStr row.error || truthyOptStr row.extract_error ||
    truthyOptStr row.semantic_error

/-- The failure detail interpolated per failing row:
`row.get("extract_error") or row.get("semantic_error") or row.get("error")`,
rendered by the f-string (a falsy chain ends at `row.get("error")`, printed
as `None` when missing). -/
def rowErrDetail (row : FileRow) : String :=
  if truthyOptStr row.extract_error then row.extract_error.getD ""
  else if truthyOptStr row.semantic_error then row.semantic_error.getD ""
  else
    match row.error with
    | some s => s
    | none => "None"

/-- One entry of the `errors` list in `process_batch`:
`f"\x7brow.get('filename', 'unknown')\x7d: ..."` (the rows the code builds
always carry `filename`). -/
def errEntry (row : FileRow) : String :=
  row.filename ++ ": " ++ rowErrDetail row

/-- The `errors` list accumulated over gathered rows. -/
def failEntries (rows : List FileRow) : List String :=
  rows.filterMap fun row =>
    if row_has_external_failure row then some (errEntry row) else none

/-- `dict.get(k)` defaulting to `None`, embedded as a value. -/
def jGetOrNull (d : List (String × JVal)) (key : String) : JVal :=
  match dictGet d key with
  | some v => v
  | none => .null

/-- `s.splitlines()[0].strip()` for the store-name cleanup: the text up to
the first newline, stripped. -/
def firstLineTrim (s : String) : String :=
  pyStrip (String.mk (s.data.takeWhile (fun c => c ≠ '\n')))

/-- `Path(p).name`: final path component. -/
def baseName (p : String) : String :=
  String.mk ((p.data.reverse.takeWhile (fun c => c ≠ '/')).reverse)

/-- `(item.category or "office").lower()`. -/
def categoryOf (item : InputFile) : String :=
  pyLower (match item.category with
           | some c => if c != "" then c else "office"
           | none => "office")

/-- Outcomes of the external calls made while processing one file: whether
the source exists, the archival compression (`Except.error` = raised), the
Azure extraction call, and — for office files — the combined
clean-fields + semantic-enrichment stage. -/
structure FileExternals where
  source_exists : Bool := true
  compress : Except String String := .error ""
  extract : Except String (List (String × JVal)) := .error ""
  semantics : Except String (List (String × JVal)) := .error ""

/-- `LocalPipelineBackend._fill_daily_row`: map Azure receipt fields into the
row's `result` and `score` dicts. -/
def fill_daily_row (row : FileRow) (azure : List (String × JVal)) : FileRow :=
  let result1 :=
    match dictGet azure "store_name" with
    | some (.str s) =>
        if pyStrip s != "" then
          dictSet row.result "store_name" (.str (firstLineTrim s))
        else row.result
    | _ => row.result
  let result2 :=
    dictSet (dictSet (dictSet result1
      "brutto" (jGetOrNull azure "brutto"))
      "netto" (jGetOrNull azure "netto"))
      "total_tax" (jGetOrNull azure "total_tax")
  let score1 :=
    dictSet (dictSet (dictSet (dictSet row.score
      "store_name" (jGetOrNull azure "confidence_store_name"))
      "brutto" (jGetOrNull azure "confidence_brutto"))
      "netto" (jGetOrNull azure "confidence_netto"))
      "total_tax" (jGetOrNull azure "confidence_total_tax")
  { row with result := result2, score := score1 }

/-- `LocalPipelineBackend._fill_office_row`: map Azure invoice fields, then
try the semantic stage, recording `semantic_error` when it raises.  The
`_clean_invoice_fields` + `_extract_office_semantics` pair inside the `try`
is folded into the single external outcome `semantics`. -/
def fill_office_row (row : FileRow) (azure : List (String × JVal))
    (semantics : Except String (List (String × JVal))) : FileRow :=
  let result1 :=
    dictSet (dictSet (dictSet row.result
      "brutto" (jGetOrNull azure "brutto"))
      "netto" (jGetOrNull azure "netto"))
      "tax_id" (jGetOrNull azure "invoice_id")
  let score1 :=
    dictSet (dictSet (dictSet row.score
      "brutto" (jGetOrNull azure "confidence_brutto"))
      "netto" (jGetOrNull azure "confidence_netto"))
      "tax_id" (jGetOrNull azure "confidence_invoice_id")
  let row1 := { row with result := result1, score := score1 }
  match semantics with
  | .ok info =>
      let result2 :=
        dictSet (dictSet (dictSet row1.result
          "type" (jGetOrNull info "purpose"))
          "sender" (jGetOrNull info "sender"))
          "receiver" (jGetOrNull info "receiver")
      { row1 with result := result2 }
  | .error e => { row1 with semantic_error := some e }

/-- `LocalPipelineBackend._process_one_file`: per-file compression +
extraction with all failures recorded on the row, never raised. -/
def process_one_file (rowId : String) (batch : BatchRecord) (item : InputFile)
    (ext : FileExternals) : FileRow :=
  let category := categoryOf item
  let row0 : FileRow :=
    { row_id := rowId
      filename := baseName item.path
      category := category
      result := [("run_date", jOfOptStr batch.run_date)]
      score := [] }
  if !ext.source_exists then
    { row0 with error := some ("missing input file: " ++ item.path) }
  else
    let row1 :=
      match ext.compress with
      | .ok archived => { row0 with preview_path := some archived }
      | .error e => { row0 with archive_error := some e }
    match ext.extract with
    | .error e => { row1 with extract_error := some e }
    | .ok azure =>
        if category == "office" then fill_office_row row1 azure ext.semantics
        else fill_daily_row row1 azure

/-- Completion of one per-file unit as seen by `_process_one_file_async`:
either the thread finished (with its external outcomes) or
`asyncio.wait_for` raised `TimeoutError`. -/
inductive FileOutcome where
  | completed (ext : FileExternals) : FileOutcome
  | timedOut : FileOutcome

/-- `LocalPipelineBackend._process_one_file_async`: the timeout is caught and
returned as a row whose `extract_error` carries the timeout message; the
function is total — no exception escapes the unit. -/
def process_one_file_async (cfg : BackendConfig) (rowId : String)
    (batch : BatchRecord) (item : InputFile) (outcome : FileOutcome) : FileRow :=
  match outcome with
  | .completed ext => process_one_file rowId batch item ext
  | .timedOut =>
      { row_id := rowId
        filename := baseName item.path
        category := categoryOf item
        result := [("run_date", jOfOptStr batch.run_date)]
        score := []
        extract_error :=
          some ("file processing timeout (" ++ cfg.file_timeout_repr ++ "s)") }

/-- The `asyncio.gather` of `process_batch`: one unit per input file, row ids
`row-%04d` from the 1-based enumeration, aggregated in input order. -/
def gatherRowsFrom (cfg : BackendConfig) (batch : BatchRecord) :
    Nat → List InputFile → List FileOutcome → List FileRow
  | _, [], _ => []
  | _, _ :: _, [] => []
  | idx, item :: items, oc :: ocs =>
      process_one_file_async cfg (rowIdFor idx) batch item oc ::
        gatherRowsFrom cfg batch (idx + 1) items ocs

/-- Gathered rows for a batch, given one completion outcome per input. -/
def gatherRows (cfg : BackendConfig) (batch : BatchRecord)
    (outcomes : List FileOutcome) : List FileRow :=
  gatherRowsFrom cfg batch 1 batch.inputs outcomes

/-- The review-payload entry per row (`review_payload` comprehension in
`process_batch`): canonical keys with `preview_path` defaulting to `None`. -/
def reviewEntry (row : FileRow) : JVal :=
  .obj [("row_id", .str row.row_id), ("filename", .str row.filename),
        ("category", .str row.category), ("result", .obj row.result),
        ("score", .obj row.score), ("preview_path", jOfOptStr row.preview_path)]

/-- The failure-aggregation and return-value construction of
`LocalPipelineBackend.process_batch`, applied to the gathered rows: any row
with an external failure escalates to a single `RuntimeError` joining the
per-row entries with `"; "`; otherwise the returned mapping nests the
artifact paths under `"artifacts"` and the review payload under
`"review_rows"`.  The `results.json` / `review_rows.json` file writes record
this same payload at the returned paths and are elided from the state. -/
def process_batch_aggregate (cfg : BackendConfig) (batch : BatchRecord)
    (rows : List FileRow) : Except String (List (String × JVal)) :=
  let errs := failEntries rows
  if !errs.isEmpty then
    .error (String.intercalate "; " errs)
  else
    .ok [("artifacts",
           .obj [("result_json_path", .str (outDir cfg batch ++ "/results.json")),
                 ("review_json_path", .str (outDir cfg batch ++ "/review_rows.json")),
                 ("archive_root", .str (outDir cfg batch ++ "/archive"))]),
         ("review_rows", .arr (rows.map reviewEntry))]

/-- `LocalPipelineBackend.process_batch` for a batch, given the per-file
completion outcomes. -/
def local_backend_process (cfg : BackendConfig) (batch : BatchRecord)
    (outcomes : List FileOutcome) : Except String (List (String × JVal)) :=
  process_batch_aggregate cfg batch (gatherRows cfg batch outcomes)

/-- The merge strategy actually executed by `LocalPipelineBackend.merge_batch`:
`merge_daily` (overwrite by normalized-date match), or `merge_office` with
`append=False` (overwrite by date match) or `append=True`. -/
inductive MergeStrategy where
  | dailyOverwrite : MergeStrategy
  | officeOverwrite : MergeStrategy
  | officeAppend : MergeStrategy
  deriving DecidableEq, Repr

/-- `str(row.get("category") or "").lower()` over a review-row value. -/
def reviewRowCategory (row : JVal) : String :=
  match row with
  | .obj fields => pyLower (pyStr (pyOr (dictGet fields "category") (.str "")))
  | _ => pyLower (pyStr (pyOr none (.str "")))

/-- The rows `_write_daily_validated_excel` keeps: categories bar/zbon. -/
def daily_rows_for_merge (batch : BatchRecord) : List JVal :=
  batch.review_rows.filter fun r =>
    reviewRowCategory r == "bar" || reviewRowCategory r == "zbon"

/-- The rows `_write_office_validated_excel` keeps: category office. -/
def office_rows_for_merge (batch : BatchRecord) : List JVal :=
  batch.review_rows.filter fun r => reviewRowCategory r == "office"

/-- The strategy-selection and validation skeleton of
`LocalPipelineBackend.merge_batch` (the Excel mechanics of
`merge_daily` / `merge_office` are external collaborators): validate the
monthly source, dispatch on `batch.batch_type` — daily always merges by
overwrite, office reads `payload.get("mode", "overwrite")` — and require the
relevant review rows to exist (`_write_*_validated_excel` raise otherwise). -/
def merge_batch_strategy (batch : BatchRecord) (payload : List (String × JVal))
    (monthlyExists : Bool) : Except String MergeStrategy :=
  let monthly := dictGet payload "monthly_excel_path"
  if !pyTruthyOpt monthly then
    .error "monthly_excel_path is required for merge"
  else if !monthlyExists then
    .error ("monthly_excel_path not found: " ++
      pyStr (match monthly with | some v => v | none => .null))
  else if batch.batch_type = BatchType.daily then
    if (daily_rows_for_merge batch).isEmpty then
      .error "No daily review rows available for merge"
    else .ok .dailyOverwrite
  else
    let append_mode :=
      pyStr (match dictGet payload "mode" with
             | some v => v
             | none => .str "overwrite") == "append"
    if (office_rows_for_merge batch).isEmpty then
      .error "No office review rows available for merge"
    else .ok (if append_mode then .officeAppend else .officeOverwrite)

/-- The worker's view of the processing backend: the result each call would
produce (`Except.error` embeds a raised exception's message). -/
structure BackendBehavior where
  process : BatchRecord → Except String (List (String × JVal))
  merge : BatchRecord → List (String × JVal) → Except String (List (String × JVal))

/-- `workers/worker.py BatchWorker.run_once`: dequeue one task; a missing
batch is dropped; PROCESS_BATCH saves RUNNING, calls the backend, and on
success merges the entire returned mapping into `artifacts`, sets
REVIEW_READY and clears `error`; MERGE_BATCH stores the output under
`merge_output`, sets MERGED and clears `error`; any raise re-loads the batch
and marks it FAILED with `error` set to the message.  An empty queue leaves
the state unchanged (`dequeue` would suspend). -/
def run_once (backend : BackendBehavior) (st : SysState) : SysState :=
  match st.queue with
  | [] => st
  | task :: rest =>
      let st0 : SysState := { st with queue := rest }
      match repoGet st0 task.batch_id with
      | none => st0
      | some batch =>
          match task.task_type with
          | .process_batch =>
              let b1 := { batch with status := BatchStatus.running }
              let st1 := repoSave st0 b1
              match backend.process b1 with
              | .ok artifacts =>
                  let b2 := { b1 with
                    artifacts := dictUpdate b1.artifacts artifacts
                    status := BatchStatus.review_ready
                    error := none }
                  repoSave st1 b2
              | .error msg =>
                  match repoGet st1 task.batch_id with
                  | some bf =>
                      repoSave st1
                        { bf with status := BatchStatus.failed, error := some msg }
                  | none => st1
          | .merge_batch =>
              match backend.merge batch task.payload with
              | .ok output =>
                  let b2 := { batch with
                    merge_output := output
                    status := BatchStatus.merged
                    error := none }
                  repoSave st0 b2
              | .error msg =>
                  match repoGet st0 task.batch_id with
                  | some bf =>
                      repoSave st0
                        { bf with status := BatchStatus.failed, error := some msg }
                  | none => st0

/-- One observable status write: the batch's status right before a
`repo.save`, and the status the save persists. -/
structure Event where
  batch_id : String
  src : BatchStatus
  dst : BatchStatus

/-- The status events of one `request_merge` call: a single save to MERGING
when the monthly source resolves, nothing otherwise (the validation raise
precedes any mutation). -/
def request_merge_events (st : SysState) (batchId : String) (req : MergeRequest) :
    List Event :=
  match repoGet st batchId with
  | none => []
  | some batch =>
      if !pyTruthy (resolveMonthly batch req) then []
      else [⟨batchId, batch.status, BatchStatus.merging⟩]

/-- The status events of one `run_once` call, at `repo.save` granularity:
PROCESS_BATCH saves RUNNING and then REVIEW_READY (success) or FAILED
(failure); MERGE_BATCH saves MERGED or FAILED. -/
def run_once_events (backend : BackendBehavior) (st : SysState) : List Event :=
  match st.queue with
  | [] => []
  | task :: _ =>
      match repoGet st task.batch_id with
      | none => []
      | some batch =>
          match task.task_type with
          | .process_batch =>
              Event.mk task.batch_id batch.status BatchStatus.running ::
                (match backend.process { batch with status := BatchStatus.running } with
                 | .ok _ => [⟨task.batch_id, BatchStatus.running, BatchStatus.review_ready⟩]
                 | .error _ => [⟨task.batch_id, BatchStatus.running, BatchStatus.failed⟩])
          | .merge_batch =>
              match backend.merge batch task.payload with
              | .ok _ => [⟨task.batch_id, batch.status, BatchStatus.merged⟩]
              | .error _ => [⟨task.batch_id, batch.status, BatchStatus.failed⟩]

/-- One step of the orchestration core: any public Batch Service operation or
one worker iteration, with the status-write events it emits.  Creation inserts
a QUEUED record under a fresh id (`uuid4` never collides) and emits no
transition; `save_review` and `save_merge_source_local` never write status. -/
inductive StepEv : SysState → List Event → SysState → Prop where
  | create (st : SysState) (req : CreateBatchRequest) (newBatchId newTaskId : String)
      (fault : PortFault) (fresh : repoGet st newBatchId = none) :
      StepEv st [] (create_batch_with_task st req newBatchId newTaskId fault).1
  | review (st : SysState) (batchId : String) (rows : List JVal) :
      StepEv st [] (save_review st batchId rows).1
  | mergeSource (st : SysState) (batchId path : String) :
      StepEv st [] (save_merge_source_local st batchId path).1
  | requestMerge (st : SysState) (batchId : String) (req : MergeRequest)
      (newTaskId : String) :
      StepEv st (request_merge_events st batchId req)
        (request_merge st batchId req newTaskId).1
  | worker (st : SysState) (backend : BackendBehavior) :
      StepEv st (run_once_events backend st) (run_once backend st)

/-- Executions of the core from a state, accumulating all emitted
status-transition events. -/
inductive ReachesEv : SysState → List Event → SysState → Prop where
  | refl (st : SysState) : ReachesEv st [] st
  | tail (st₁ : SysState) (evs : List Event) (st₂ : SysState) (evs₂ : List Event)
      (st₃ : SysState) (h₁ : ReachesEv st₁ evs st₂) (h₂ : StepEv st₂ evs₂ st₃) :
      ReachesEv st₁ (evs ++ evs₂) st₃

/-- The empty initial world. -/
def initState : SysState := {}

/-- The §4.2 edge set claimed by the spec: the chain
QUEUED → RUNNING → REVIEW_READY → MERGING → MERGED plus any-state → FAILED. -/
def specEdge : BatchStatus → BatchStatus → Bool
  | .queued, .running => true
  | .running, .review_ready => true
  | .review_ready, .merging => true
  | .merging, .merged => true
  | _, .failed => true
  | _, _ => false

/-- The edge set the code actually guarantees: RUNNING is entered from any
status when the worker starts a PROCESS_BATCH task, REVIEW_READY only from
RUNNING, and MERGING / MERGED / FAILED are entered from any status
(`request_merge` and the MERGE_BATCH handler check no status precondition);
QUEUED is never re-entered. -/
def codeEdge : BatchStatus → BatchStatus → Bool
  | _, .running => true
  | .running, .review_ready => true
  | _, .merging => true
  | _, .merged => true
  | _, .failed => true
  | _, _ => false

/-- Key lookup inside an object value (`row["result"]`-style access on
canonical rows), `none` on non-objects. -/
def objGet : JVal → String → Option JVal
  | .obj fields, key => dictGet fields key
  | _, _ => none

/-- `payload.get("mode", "overwrite")`. -/
def payloadMode (payload : List (String × JVal)) : JVal :=
  match dictGet payload "mode" with
  | some v => v
  | none => .str "overwrite"

/-- Fixture: a valid daily create request with one zbon input. -/
def reqFix : CreateBatchRequest :=
  { type := .daily
    run_date := some "04/02/2026"
    inputs := [{ path := "uploads/a.pdf", category := some "zbon" }] }

/-- Fixture: a canonical review row for a zbon receipt. -/
def rowFix : JVal :=
  .obj [("row_id", .str "row-0001"), ("category", .str "zbon"),
        ("filename", .str "a.pdf"),
        ("result", .obj [("run_date", .str "04/02/2026"), ("brutto", .str "100.00")]),
        ("score", .obj []), ("preview_path", .null)]

/-- Fixture: a REVIEW_READY batch carrying a stale failure message and an
uploaded monthly merge source. -/
def staleErrBatch : BatchRecord :=
  { batch_id := "b1"
    batch_type := .daily
    status := .review_ready
    run_date := some "04/02/2026"
    inputs := [{ path := "uploads/a.pdf", category := some "zbon" }]
    artifacts := [("monthly_excel_path", .str "m.xlsx")]
    review_rows := [rowFix]
    error := some "boom" }

/-- Fixture: the world holding exactly `staleErrBatch`. -/
def staleErrState : SysState :=
  { repo := [("b1", staleErrBatch)] }

/-- Fixture: world after creating a batch from `reqFix` (C3 trace, step 1). -/
def traceSt1 : SysState :=
  (create_batch_with_task initState reqFix "b1" "t1" .noFault).1

/-- Fixture: the merge request used in the C3 trace. -/
def traceMergeReq : MergeRequest :=
  { mode := .overwrite, monthly_excel_path := some "m.xlsx" }

/-- Fixture: world after requesting a merge on the still-QUEUED batch
(C3 trace, step 2). -/
def traceSt2 : SysState :=
  (request_merge traceSt1 "b1" traceMergeReq "t2").1

/-- Fixture: a FileRow with a failed extraction. -/
def failedRowFix : FileRow :=
  { row_id := "row-0001"
    filename := "a.pdf"
    category := "zbon"
    result := [("run_date", .str "04/02/2026")]
    extract_error := some "azure down" }

/-- Fixture: a FileRow that extracted cleanly. -/
def okRowFix : FileRow :=
  { row_id := "row-0002"
    filename := "b.pdf"
    category := "zbon"
    result := [("run_date", .str "04/02/2026"), ("brutto", .str "9.99")]
    preview_path := some "outputs/webapp/b1/archive/zbon/b.pdf" }

/-- Fixture: a QUEUED batch whose PROCESS_BATCH task is about to run. -/
def queuedBatchFix : BatchRecord :=
  BatchRecord.new reqFix "b1"

/-- Fixture: world in which `queuedBatchFix` sits in the repository and its
PROCESS_BATCH task heads the queue. -/
def queuedStateFix : SysState :=
  { repo := [("b1", queuedBatchFix)]
    queue := [{ task_id := "t1", batch_id := "b1", task_type := .process_batch }] }

/-- Fixture: per-file outcomes in which the only input times out. -/
def timeoutOutcomesFix : List FileOutcome :=
  [.timedOut]

/-- Fixture: a backend behavior that always reports a fixed failure. -/
def failingBackendFix : BackendBehavior :=
  { process := fun _ => .error "azure down"
    merge := fun _ _ => .error "merge blew up" }

/-- Fixture: a backend behavior that always succeeds with fixed outputs. -/
def okBackendFix : BackendBehavior :=
  { process := fun _ => .ok [("artifacts", .obj []), ("review_rows", .arr [])]
    merge := fun _ _ => .ok [("merged_excel_path", .str "m2.xlsx")] }

/-- Fixture: per-file outcomes in which the only input completes cleanly. -/
def okOutcomesFix : List FileOutcome :=
  [.completed
    { source_exists := true
      compress := .ok "outputs/webapp/b1/archive/zbon/a.pdf"
      extract := .ok [("store_name", .str "Shop"), ("brutto", .str "9.99")]
      semantics := .error "unused for daily categories" }]

/-- Fixture: the mapping `process_batch` returns for `okOutcomesFix` on the
queued fixture batch. -/
def procResultFix : List (String × JVal) :=
  [("artifacts",
     .obj [("result_json_path", .str "outputs/webapp/b1/results.json"),
           ("review_json_path", .str "outputs/webapp/b1/review_rows.json"),
           ("archive_root", .str "outputs/webapp/b1/archive")]),
   ("review_rows",
     .arr ((gatherRows {} { queuedBatchFix with status := .running }
       okOutcomesFix).map reviewEntry))]

/-- The MERGE_BATCH task `request_merge` enqueues on success. -/
def mergeTaskOf (batchId : String) (req : MergeRequest) (batch : BatchRecord)
    (tId : String) : QueueTask :=
  { task_id := tId
    batch_id := batchId
    task_type := .merge_batch
    payload := dictSet (mergeRequestDump req) "monthly_excel_path" (resolveMonthly batch req) }

/-- Fixture: a merge request carrying no explicit monthly source. -/
def appendReqFix : MergeRequest :=
  { mode := .append }

/-- Fixture: a canonical office review row. -/
def officeRowFix : JVal :=
  .obj [("row_id", .str "row-0001"), ("category", .str "office"),
        ("filename", .str "inv.pdf"),
        ("result", .obj [("brutto", .str "5.00"), ("sender", .str "ACME")]),
        ("score", .obj []), ("preview_path", .null)]

/-- Fixture: a reviewed OFFICE batch. -/
def officeBatchFix : BatchRecord :=
  { batch_id := "b2"
    batch_type := .office
    status := .review_ready
    run_date := some "04/02/2026"
    review_rows := [officeRowFix] }

/-- Fixture: a merge payload requesting append mode. -/
def payloadAppendFix : List (String × JVal) :=
  [("mode", .str "append"), ("monthly_excel_path", .str "m.xlsx"),
   ("metadata", .obj [])]

/-- Fixture: a merge payload requesting overwrite mode. -/
def payloadOverwriteFix : List (String × JVal) :=
  [("mode", .str "overwrite"), ("monthly_excel_path", .str "m.xlsx"),
   ("metadata", .obj [])]

/-- Fixture: submitted review-row fields lacking a `row_id` and a
`result.run_date`. -/
def rowNoIdFieldsFix : List (String × JVal) :=
  [("category", .str "zbon"), ("filename", .str "a.pdf"),
   ("result", .obj [("brutto", .str "1")])]

/-- Fixture: the canonical row normalization produces for `rowNoIdFieldsFix`
at 1-based position 3 under run date `04/02/2026`. -/
def normNoIdOutFix : JVal :=
  .obj [("row_id", .str "row-0003"), ("category", .str "zbon"),
        ("filename", .str "a.pdf"),
        ("result", .obj [("brutto", .str "1"), ("run_date", .str "04/02/2026")]),
        ("score", .obj []), ("preview_path", .null)]

/-- Fixture: a submitted review row with an unknown category. -/
def badCatRowFix : JVal :=
  .obj [("category", .str "weird"), ("filename", .str "a.pdf"),
        ("result", .obj [("brutto", .str "1")])]

/-!
## Helper lemmas
-/

theorem assocGet_assocSet_self {α : Type} (d : List (String × α)) (k : String) (v : α) :
    assocGet (assocSet d k v) k = some v := by
  induction d with
  | nil => simp [assocSet, assocGet]
  | cons p rest ih =>
      obtain ⟨k', v'⟩ := p
      by_cases h : k' = k
      · simp [assocSet, assocGet, h]
      · simp [assocSet, assocGet, h, ih]

theorem assocGet_assocSet_ne {α : Type} (d : List (String × α)) (k key : String) (v : α)
    (h : key ≠ k) : assocGet (assocSet d k v) key = assocGet d key := by
  induction d with
  | nil => simp [assocSet, assocGet, Ne.symm h]
  | cons p rest ih =>
      obtain ⟨k', v'⟩ := p
      by_cases h2 : k' = k
      · subst h2
        simp [assocSet, assocGet, Ne.symm h]
      · by_cases h3 : k' = key
        · subst h3
          simp [assocSet, assocGet, h, h2]
        · simp [assocSet, assocGet, h2, h3, ih]

theorem assocSet_eq_self {α : Type} (d : List (String × α)) (k : String) (v : α)
    (h : assocGet d k = some v) : assocSet d k v = d := by
  induction d with
  | nil => simp [assocGet] at h
  | cons p rest ih =>
      obtain ⟨k', v'⟩ := p
      by_cases h2 : k' = k
      · subst h2
        simp [assocGet] at h
        simp [assocSet, h]
      · simp [assocGet, h2] at h
        simp [assocSet, h2, ih h]

/-!
## C2 — create_batch_with_task
-/

/-- C2 counterexample: the claim asserts that when enqueueing the
PROCESS_BATCH task fails, no batch is visible in the repository.  In the code
`repo.create(batch)` is awaited before `queue.enqueue(task)` with no rollback,
so at the concrete input `reqFix` with an enqueue-raising queue port the call
propagates the exception (result `none`), no task is enqueued — yet the
freshly created QUEUED batch is visible in the repository. -/
theorem C2_counterexample :
    (create_batch_with_task initState reqFix "b1" "t1" .enqueueFault).2 = none ∧
    (create_batch_with_task initState reqFix "b1" "t1" .enqueueFault).1.queue = [] ∧
    repoGet (create_batch_with_task initState reqFix "b1" "t1" .enqueueFault).1 "b1" =
      some (BatchRecord.new reqFix "b1") ∧
    (BatchRecord.new reqFix "b1").status = BatchStatus.queued :=
  ⟨rfl, rfl, rfl, rfl⟩

/-- C2 (amended): for every valid creation request,
`create_batch_with_task` inserts exactly one new batch with status QUEUED and
enqueues exactly one PROCESS_BATCH task carrying that batch's id; if creating
the batch fails nothing is visible and no task is enqueued, but if enqueueing
fails after creation the already-created batch remains visible (creation is
not rolled back — the pair is not atomic in that direction; the bundled
in-memory ports never fail either call). -/
theorem C2_create_batch_with_task_effects (st : SysState) (req : CreateBatchRequest)
    (bId tId : String) :
    ((create_batch_with_task st req bId tId .noFault).2 =
        some (BatchRecord.new req bId,
          { task_id := tId, batch_id := bId, task_type := .process_batch }) ∧
      (BatchRecord.new req bId).status = BatchStatus.queued ∧
      repoGet (create_batch_with_task st req bId tId .noFault).1 bId =
        some (BatchRecord.new req bId) ∧
      (∀ id, id ≠ bId →
        repoGet (create_batch_with_task st req bId tId .noFault).1 id = repoGet st id) ∧
      (create_batch_with_task st req bId tId .noFault).1.queue =
        st.queue ++ [{ task_id := tId, batch_id := bId, task_type := .process_batch }]) ∧
    ((create_batch_with_task st req bId tId .createFault).1 = st ∧
      (create_batch_with_task st req bId tId .createFault).2 = none) ∧
    ((create_batch_with_task st req bId tId .enqueueFault).2 = none ∧
      repoGet (create_batch_with_task st req bId tId .enqueueFault).1 bId =
        some (BatchRecord.new req bId) ∧
      (create_batch_with_task st req bId tId .enqueueFault).1.queue = st.queue) := by
  refine ⟨⟨rfl, rfl, ?_, ?_, rfl⟩, ⟨rfl, rfl⟩, ⟨rfl, ?_, rfl⟩⟩
  · exact assocGet_assocSet_self st.repo bId (BatchRecord.new req bId)
  · intro id hid
    exact assocGet_assocSet_ne st.repo bId id (BatchRecord.new req bId) hid
  · exact assocGet_assocSet_self st.repo bId (BatchRecord.new req bId)

/-- Closed instance of `C2_create_batch_with_task_effects` at the fixture
request, with the frame condition applied at the distinct id `"zz"`. -/
theorem C2_create_batch_with_task_effects_witness :
    repoGet (create_batch_with_task initState reqFix "b1" "t1" .noFault).1 "b1" =
      some (BatchRecord.new reqFix "b1") ∧
    repoGet (create_batch_with_task initState reqFix "b1" "t1" .noFault).1 "zz" = none :=
  ⟨(C2_create_batch_with_task_effects initState reqFix "b1" "t1").1.2.2.1,
   ((C2_create_batch_with_task_effects initState reqFix "b1" "t1").1.2.2.2.1 "zz"
      (by decide)).trans rfl⟩

/-!
## C4 — request_merge
-/

/-- C4: for every existing batch, `request_merge` resolves the monthly source
as the request's explicit value when that is truthy (present and non-empty),
else the previously uploaded `monthly_excel_path` artifact; when neither is
available it raises a validation error and leaves the state — batch and queue
— entirely unchanged; when one is available it sets status MERGING, saves the
batch, and enqueues exactly one MERGE_BATCH task whose payload carries the
resolved path. -/
theorem C4_request_merge (st : SysState) (batchId : String) (req : MergeRequest)
    (tId : String) (batch : BatchRecord) (hb : repoGet st batchId = some batch)
    (hkey : batch.batch_id = batchId) :
    ((∀ p, req.monthly_excel_path = some p → p ≠ "" → resolveMonthly batch req = .str p) ∧
      (pyTruthy (jOfOptStr req.monthly_excel_path) = false →
        resolveMonthly batch req = jGetOrNull batch.artifacts "monthly_excel_path")) ∧
    (pyTruthy (resolveMonthly batch req) = false →
      request_merge st batchId req tId =
        (st, .error "monthly_excel_path is required or upload via /merge-source/local first")) ∧
    (pyTruthy (resolveMonthly batch req) = true →
      request_merge st batchId req tId =
        (enqueue (repoSave st { batch with status := .merging })
          (mergeTaskOf batchId req batch tId),
         .ok (mergeTaskOf batchId req batch tId)) ∧
      repoGet (request_merge st batchId req tId).1 batchId =
        some { batch with status := BatchStatus.merging } ∧
      (request_merge st batchId req tId).1.queue =
        st.queue ++ [mergeTaskOf batchId req batch tId] ∧
      dictGet (mergeTaskOf batchId req batch tId).payload "monthly_excel_path" =
        some (resolveMonthly batch req)) := by
  refine ⟨⟨?_, ?_⟩, ?_, ?_⟩
  · intro p hp hne
    simp [resolveMonthly, hp, jOfOptStr, pyTruthy, hne]
  · intro hfalsy
    simp [resolveMonthly, hfalsy, jGetOrNull]
  · intro hfalse
    simp [request_merge, hb, hfalse]
  · intro htrue
    have hmain : request_merge st batchId req tId =
        (enqueue (repoSave st { batch with status := .merging })
          (mergeTaskOf batchId req batch tId),
         .ok (mergeTaskOf batchId req batch tId)) := by
      simp [request_merge, hb, htrue, mergeTaskOf]
    refine ⟨hmain, ?_, ?_, ?_⟩
    · rw [hmain]
      simp only [repoGet, enqueue, repoSave]
      have hkey2 : ({ batch with status := BatchStatus.merging } : BatchRecord).batch_id
          = batchId := hkey
      rw [hkey2]
      exact assocGet_assocSet_self st.repo batchId _
    · rw [hmain]
      rfl
    · simp [mergeTaskOf, mergeRequestDump, dictGet, dictSet, assocGet, assocSet]

/-- Closed instance of `C4_request_merge`: the missing-source request on the
artifact-free QUEUED fixture fails without mutating anything, and the
no-explicit-path request on the fixture carrying an uploaded source moves the
batch to MERGING. -/
theorem C4_request_merge_witness :
    request_merge queuedStateFix "b1" appendReqFix "t9" =
      (queuedStateFix,
       .error "monthly_excel_path is required or upload via /merge-source/local first") ∧
    repoGet (request_merge staleErrState "b1" appendReqFix "t9").1 "b1" =
      some { staleErrBatch with status := BatchStatus.merging } :=
  ⟨(C4_request_merge queuedStateFix "b1" appendReqFix "t9" queuedBatchFix rfl rfl).2.1 rfl,
   ((C4_request_merge staleErrState "b1" appendReqFix "t9" staleErrBatch rfl rfl).2.2
      rfl).2.1⟩

/-!
## C1 — all-or-nothing failure aggregation
-/

/-- C1: in every PROCESS_BATCH run, any per-file row carrying a truthy
`error`, `extract_error` or `semantic_error` makes the backend raise (the
joined message containing that file's `filename: detail` entry), and the
worker then marks the batch FAILED with `error` set — even when every other
file succeeded; a row carrying only `archive_error` is not an external
failure and proceeds into the review payload with a null preview. -/
theorem C1_all_or_nothing (cfg : BackendConfig) (outcomes : List FileOutcome)
    (st : SysState) (task : QueueTask) (rest : List QueueTask) (batch : BatchRecord)
    (mrg : BatchRecord → List (String × JVal) → Except String (List (String × JVal)))
    (r : FileRow)
    (hq : st.queue = task :: rest) (htt : task.task_type = .process_batch)
    (hb : repoGet st task.batch_id = some batch) (hkey : batch.batch_id = task.batch_id)
    (hr : r ∈ gatherRows cfg { batch with status := .running } outcomes)
    (hfail : row_has_external_failure r = true) :
    (errEntry r ∈
      failEntries (gatherRows cfg { batch with status := .running } outcomes)) ∧
    (local_backend_process cfg { batch with status := .running } outcomes =
      .error (String.intercalate "; "
        (failEntries (gatherRows cfg { batch with status := .running } outcomes)))) ∧
    (repoGet (run_once ⟨fun b => local_backend_process cfg b outcomes, mrg⟩ st)
        task.batch_id =
      some { batch with
        status := BatchStatus.failed
        error := some (String.intercalate "; "
          (failEntries (gatherRows cfg { batch with status := .running } outcomes))) }) ∧
    (∀ rid b itm e az sem,
      (categoryOf itm = "office" → ∃ info, sem = .ok info) →
      row_has_external_failure (process_one_file rid b itm
        { source_exists := true, compress := .error e, extract := .ok az,
          semantics := sem }) = false ∧
      (process_one_file rid b itm
        { source_exists := true, compress := .error e, extract := .ok az,
          semantics := sem }).archive_error = some e ∧
      (process_one_file rid b itm
        { source_exists := true, compress := .error e, extract := .ok az,
          semantics := sem }).preview_path = none ∧
      objGet (reviewEntry (process_one_file rid b itm
        { source_exists := true, compress := .error e, extract := .ok az,
          semantics := sem })) "preview_path" = some .null) := by
  have hmem : errEntry r ∈
      failEntries (gatherRows cfg { batch with status := .running } outcomes) := by
    rw [failEntries, List.mem_filterMap]
    exact ⟨r, hr, by rw [hfail]; simp⟩
  have hnil : failEntries (gatherRows cfg { batch with status := .running } outcomes)
      ≠ [] := List.ne_nil_of_mem hmem
  have hproc : local_backend_process cfg { batch with status := .running } outcomes =
      .error (String.intercalate "; "
        (failEntries (gatherRows cfg { batch with status := .running } outcomes))) := by
    cases hE : failEntries (gatherRows cfg { batch with status := .running } outcomes) with
    | nil => exact absurd hE hnil
    | cons a l =>
        simp [local_backend_process, process_batch_aggregate, hE]
  refine ⟨hmem, hproc, ?_, ?_⟩
  · have hb0 : assocGet st.repo task.batch_id = some batch := hb
    have hproc2 := hproc
    rw [hkey] at hproc2
    simp only [run_once, hq, repoGet, repoSave, hb0, htt, hkey, hproc2,
      assocGet_assocSet_self]
  · intro rid b itm e az sem hsem
    by_cases hcat : categoryOf itm = "office"
    · obtain ⟨info, hinfo⟩ := hsem hcat
      subst hinfo
      refine ⟨?_, ?_, ?_, ?_⟩ <;>
        simp [process_one_file, hcat, fill_office_row, row_has_external_failure,
          truthyOptStr, reviewEntry, objGet, dictGet, assocGet, jOfOptStr]
    · refine ⟨?_, ?_, ?_, ?_⟩ <;>
        simp [process_one_file, hcat, fill_daily_row, row_has_external_failure,
          truthyOptStr, reviewEntry, objGet, dictGet, assocGet, jOfOptStr]

/-- Closed instance of `C1_all_or_nothing`: one timed-out input among none
other fails the QUEUED fixture batch end to end. -/
theorem C1_all_or_nothing_witness :
    repoGet (run_once
        ⟨fun b => local_backend_process {} b timeoutOutcomesFix,
         fun _ _ => Except.error "unused"⟩ queuedStateFix) "b1" =
      some { queuedBatchFix with
        status := BatchStatus.failed
        error := some (String.intercalate "; "
          (failEntries (gatherRows {} { queuedBatchFix with status := .running }
            timeoutOutcomesFix))) } := by
  have h := C1_all_or_nothing {} timeoutOutcomesFix queuedStateFix
    { task_id := "t1", batch_id := "b1", task_type := .process_batch } []
    queuedBatchFix (fun _ _ => Except.error "unused")
    (process_one_file_async {} (rowIdFor 1) { queuedBatchFix with status := .running }
      { path := "uploads/a.pdf", category := some "zbon" } .timedOut)
    rfl rfl rfl rfl (by simp [gatherRows, timeoutOutcomesFix, gatherRowsFrom,
      queuedBatchFix, BatchRecord.new, reqFix]) (by rfl)
  exact h.2.2.1

/-!
## C7 — per-file timeout
-/

/-- C7: a per-file unit that exceeds the timeout does not propagate an
exception — `_process_one_file_async` catches `asyncio.TimeoutError` and
returns a row whose `extract_error` is the timeout message, with empty score
and a result holding only `run_date`; such a row is an external failure, so
at aggregation a timed-out file fails the batch exactly like any other
extraction failure. -/
theorem C7_timeout_row (cfg : BackendConfig) (rowId : String) (batch : BatchRecord)
    (item : InputFile) :
    process_one_file_async cfg rowId batch item .timedOut =
      { row_id := rowId
        filename := baseName item.path
        category := categoryOf item
        result := [("run_date", jOfOptStr batch.run_date)]
        score := []
        extract_error :=
          some ("file processing timeout (" ++ cfg.file_timeout_repr ++ "s)") } ∧
    row_has_external_failure (process_one_file_async cfg rowId batch item .timedOut) = true ∧
    (∀ cfg2 b rows, process_one_file_async cfg rowId batch item .timedOut ∈ rows →
      ∃ m, process_batch_aggregate cfg2 b rows = .error m ∧
        errEntry (process_one_file_async cfg rowId batch item .timedOut) ∈ failEntries rows) := by
  have hne : ("file processing timeout (" ++ cfg.file_timeout_repr ++ "s)") ≠ "" := by
    intro h
    have h1 := congrArg String.length h
    rw [String.length_append, String.length_append] at h1
    have h2 : ("file processing timeout (" : String).length = 25 := rfl
    have h3 : ("s)" : String).length = 2 := rfl
    have h4 : ("" : String).length = 0 := rfl
    rw [h2, h3, h4] at h1
    omega
  have hfail : row_has_external_failure
      (process_one_file_async cfg rowId batch item .timedOut) = true := by
    simp [process_one_file_async, row_has_external_failure, truthyOptStr,
      bne_iff_ne, hne]
  refine ⟨rfl, hfail, ?_⟩
  intro cfg2 b rows hmem
  have hmem2 : errEntry (process_one_file_async cfg rowId batch item .timedOut) ∈
      failEntries rows := by
    rw [failEntries, List.mem_filterMap]
    exact ⟨_, hmem, by rw [hfail]; simp⟩
  have hne2 : failEntries rows ≠ [] := List.ne_nil_of_mem hmem2
  refine ⟨String.intercalate "; " (failEntries rows), ?_, hmem2⟩
  cases hE : failEntries rows with
  | nil => exact absurd hE hne2
  | cons a l => simp [process_batch_aggregate, hE]

/-- Closed instance of `C7_timeout_row` at a concrete input file: the
timed-out row fails the one-row aggregation. -/
theorem C7_timeout_row_witness :
    row_has_external_failure (process_one_file_async {} "row-0001" queuedBatchFix
      { path := "uploads/a.pdf", category := some "zbon" } .timedOut) = true ∧
    ∃ m, process_batch_aggregate {} queuedBatchFix
      [process_one_file_async {} "row-0001" queuedBatchFix
        { path := "uploads/a.pdf", category := some "zbon" } .timedOut] = .error m := by
  have h := C7_timeout_row {} "row-0001" queuedBatchFix
    { path := "uploads/a.pdf", category := some "zbon" }
  exact ⟨h.2.1, (h.2.2 {} queuedBatchFix _ (by simp)).imp fun m hm => hm.1⟩

/-!
## C6 — merge mode dispatch
-/

/-- C6: for every merge execution passing source validation, the strategy is
selected by `batch_type` alone — a daily batch always merges by
overwrite-on-date-match whatever mode the payload carries, while an office
batch appends exactly when the payload mode renders to `"append"` and
overwrites otherwise (in particular for `"overwrite"`). -/
theorem C6_merge_mode_dispatch (batch : BatchRecord) (payload : List (String × JVal))
    (ex : Bool)
    (hmonthly : pyTruthyOpt (dictGet payload "monthly_excel_path") = true)
    (hex : ex = true) :
    (batch.batch_type = .daily → daily_rows_for_merge batch ≠ [] →
      merge_batch_strategy batch payload ex = .ok .dailyOverwrite) ∧
    (batch.batch_type = .office → office_rows_for_merge batch ≠ [] →
      ((pyStr (payloadMode payload) = "append" →
          merge_batch_strategy batch payload ex = .ok .officeAppend) ∧
       (pyStr (payloadMode payload) ≠ "append" →
          merge_batch_strategy batch payload ex = .ok .officeOverwrite))) := by
  subst hex
  have hlist : ∀ (l : List JVal), l ≠ [] → l.isEmpty = false := by
    intro l hl
    cases l with
    | nil => exact absurd rfl hl
    | cons a t => rfl
  refine ⟨?_, ?_⟩
  · intro hdt hne
    simp [merge_batch_strategy, hmonthly, hdt, hlist _ hne]
  · intro hot hne
    have hnd : ¬(batch.batch_type = BatchType.daily) := by
      rw [hot]
      intro h
      cases h
    constructor
    · intro hmode
      simp only [payloadMode] at hmode
      simp [merge_batch_strategy, hmonthly, hnd, hlist _ hne, hmode]
    · intro hmode
      simp only [payloadMode] at hmode
      simp [merge_batch_strategy, hmonthly, hnd, hlist _ hne, hmode]

/-- Closed instance of `C6_merge_mode_dispatch`: the daily fixture merges by
date-overwrite even under an append payload; the office fixture honors
append vs overwrite exactly. -/
theorem C6_merge_mode_dispatch_witness :
    merge_batch_strategy staleErrBatch payloadAppendFix true = .ok .dailyOverwrite ∧
    merge_batch_strategy officeBatchFix payloadAppendFix true = .ok .officeAppend ∧
    merge_batch_strategy officeBatchFix payloadOverwriteFix true = .ok .officeOverwrite := by
  have hne1 : daily_rows_for_merge staleErrBatch ≠ [] := by
    intro h
    exact absurd (congrArg List.length h) (by decide)
  have hne2 : office_rows_for_merge officeBatchFix ≠ [] := by
    intro h
    exact absurd (congrArg List.length h) (by decide)
  refine ⟨?_, ?_, ?_⟩
  · exact (C6_merge_mode_dispatch staleErrBatch payloadAppendFix true rfl rfl).1 rfl hne1
  · exact ((C6_merge_mode_dispatch officeBatchFix payloadAppendFix true rfl rfl).2
      rfl hne2).1 rfl
  · exact ((C6_merge_mode_dispatch officeBatchFix payloadOverwriteFix true rfl rfl).2
      rfl hne2).2 (by decide)

/-!
## C8 — error field lifecycle
-/

/-- C8 counterexample: the claim asserts that `request_merge`'s transition to
MERGING leaves `error` empty.  On the concrete fixture batch whose previous
failure left `error = "boom"`, a successful `request_merge` sets status
MERGING but does not touch `error`: the stale message survives. -/
theorem C8_counterexample :
    repoGet (request_merge staleErrState "b1" appendReqFix "t8").1 "b1" =
      some { staleErrBatch with status := BatchStatus.merging } ∧
    ({ staleErrBatch with status := BatchStatus.merging } : BatchRecord).error =
      some "boom" :=
  ⟨rfl, rfl⟩

/-- C8 (amended): `error` is set to the failure message on every worker
failure and cleared on the worker's success transitions — RUNNING →
REVIEW_READY and the transition to MERGED; `request_merge`'s transition to
MERGING (like the transition into RUNNING) leaves `error` unchanged. -/
theorem C8_error_field (st : SysState) (task : QueueTask) (rest : List QueueTask)
    (batch : BatchRecord) (backend : BackendBehavior)
    (hq : st.queue = task :: rest) (hb : repoGet st task.batch_id = some batch)
    (hkey : batch.batch_id = task.batch_id) :
    (∀ artifacts, task.task_type = .process_batch →
      backend.process { batch with status := .running } = .ok artifacts →
      repoGet (run_once backend st) task.batch_id =
        some { batch with
          artifacts := dictUpdate batch.artifacts artifacts
          status := BatchStatus.review_ready
          error := none }) ∧
    (∀ msg, task.task_type = .process_batch →
      backend.process { batch with status := .running } = .error msg →
      repoGet (run_once backend st) task.batch_id =
        some { batch with status := BatchStatus.failed, error := some msg }) ∧
    (∀ output, task.task_type = .merge_batch →
      backend.merge batch task.payload = .ok output →
      repoGet (run_once backend st) task.batch_id =
        some { batch with
          merge_output := output
          status := BatchStatus.merged
          error := none }) ∧
    (∀ msg, task.task_type = .merge_batch →
      backend.merge batch task.payload = .error msg →
      repoGet (run_once backend st) task.batch_id =
        some { batch with status := BatchStatus.failed, error := some msg }) ∧
    (∀ st2 batchId req tId (batch2 : BatchRecord),
      repoGet st2 batchId = some batch2 → batch2.batch_id = batchId →
      pyTruthy (resolveMonthly batch2 req) = true →
      repoGet (request_merge st2 batchId req tId).1 batchId =
        some { batch2 with status := BatchStatus.merging } ∧
      ({ batch2 with status := BatchStatus.merging } : BatchRecord).error =
        batch2.error) := by
  have hb0 : assocGet st.repo task.batch_id = some batch := hb
  refine ⟨?_, ?_, ?_, ?_, ?_⟩
  · intro artifacts htt hok
    rw [hkey] at hok
    simp only [run_once, hq, repoGet, repoSave, hb0, htt, hkey, hok,
      assocGet_assocSet_self]
  · intro msg htt herr
    rw [hkey] at herr
    simp only [run_once, hq, repoGet, repoSave, hb0, htt, hkey, herr,
      assocGet_assocSet_self]
  · intro output htt hok
    simp only [run_once, hq, repoGet, repoSave, hb0, htt, hkey, hok,
      assocGet_assocSet_self]
  · intro msg htt herr
    simp only [run_once, hq, repoGet, repoSave, hb0, htt, hkey, herr,
      assocGet_assocSet_self]
  · intro st2 batchId req tId batch2 hb2 hkey2 htrue
    refine ⟨?_, rfl⟩
    have hmain : request_merge st2 batchId req tId =
        (enqueue (repoSave st2 { batch2 with status := .merging })
          (mergeTaskOf batchId req batch2 tId),
         .ok (mergeTaskOf batchId req batch2 tId)) := by
      simp [request_merge, hb2, htrue, mergeTaskOf]
    rw [hmain]
    simp only [repoGet, enqueue, repoSave]
    have hkey3 : ({ batch2 with status := BatchStatus.merging } : BatchRecord).batch_id
        = batchId := hkey2
    rw [hkey3]
    exact assocGet_assocSet_self st2.repo batchId _

/-- Closed instance of `C8_error_field`: a successful PROCESS_BATCH run on
the QUEUED fixture ends REVIEW_READY with `error = none`, while a successful
`request_merge` on the stale-error fixture keeps the old message. -/
theorem C8_error_field_witness :
    repoGet (run_once okBackendFix queuedStateFix) "b1" =
      some { queuedBatchFix with
        artifacts := dictUpdate queuedBatchFix.artifacts
          [("artifacts", .obj []), ("review_rows", .arr [])]
        status := BatchStatus.review_ready
        error := none } ∧
    repoGet (request_merge staleErrState "b1" appendReqFix "t8").1 "b1" =
      some { staleErrBatch with status := BatchStatus.merging } ∧
    ({ staleErrBatch with status := BatchStatus.merging } : BatchRecord).error =
      some "boom" := by
  have h := C8_error_field queuedStateFix
    { task_id := "t1", batch_id := "b1", task_type := .process_batch } []
    queuedBatchFix okBackendFix rfl rfl rfl
  have h5 := h.2.2.2.2 staleErrState "b1" appendReqFix "t8" staleErrBatch rfl rfl rfl
  exact ⟨h.1 [("artifacts", .obj []), ("review_rows", .arr [])] rfl rfl, h5.1,
    h5.2.trans rfl⟩

/-!
## C10 — worker never writes review_rows; artifacts nesting
-/

theorem repoGet_repoSave (st : SysState) (b : BatchRecord) (id : String) :
    repoGet (repoSave st b) id = if id = b.batch_id then some b else repoGet st id := by
  by_cases h : id = b.batch_id
  · subst h
    simp [repoGet, repoSave, assocGet_assocSet_self]
  · simp [repoGet, repoSave, assocGet_assocSet_ne _ _ _ _ h, h]

theorem repoGet_repoSave_cases (stx : SysState) (rec : BatchRecord) (id : String)
    (b2 : BatchRecord) (h : repoGet (repoSave stx rec) id = some b2) :
    (id = rec.batch_id ∧ b2 = rec) ∨ (¬id = rec.batch_id ∧ repoGet stx id = some b2) := by
  rw [repoGet_repoSave] at h
  by_cases hid : id = rec.batch_id
  · rw [if_pos hid] at h
    exact Or.inl ⟨hid, (Option.some.inj h).symm⟩
  · rw [if_neg hid] at h
    exact Or.inr ⟨hid, h⟩

/-- C10: every worker task execution — PROCESS_BATCH or MERGE_BATCH, success
or failure — leaves every batch's `review_rows` unchanged (only `save_review`
writes that field); and on PROCESS_BATCH success the worker merges the
backend's entire return mapping into `batch.artifacts`, so the processing
results sit under the artifact keys `"artifacts"` and `"review_rows"` rather
than as top-level artifact entries or in `batch.review_rows`. -/
theorem C10_worker_frame (backend : BackendBehavior) (st : SysState)
    (hwf : ∀ id b, repoGet st id = some b → b.batch_id = id) :
    (∀ id b2, repoGet (run_once backend st) id = some b2 →
      ∃ b, repoGet st id = some b ∧ b2.review_rows = b.review_rows) ∧
    (∀ cfg outcomes task rest batch m,
      st.queue = task :: rest → task.task_type = .process_batch →
      repoGet st task.batch_id = some batch →
      backend.process { batch with status := .running } =
        local_backend_process cfg { batch with status := .running } outcomes →
      local_backend_process cfg { batch with status := .running } outcomes = .ok m →
      (∃ A R, m = [("artifacts", A), ("review_rows", R)] ∧
        repoGet (run_once backend st) task.batch_id =
          some { batch with
            artifacts := dictUpdate batch.artifacts m
            status := BatchStatus.review_ready
            error := none } ∧
        dictGet (dictUpdate batch.artifacts m) "artifacts" = some A ∧
        dictGet (dictUpdate batch.artifacts m) "review_rows" = some R ∧
        ({ batch with
            artifacts := dictUpdate batch.artifacts m
            status := BatchStatus.review_ready
            error := none } : BatchRecord).review_rows = batch.review_rows)) := by
  constructor
  · intro id b2 h2
    simp only [run_once] at h2
    split at h2
    · exact ⟨b2, h2, rfl⟩
    next task rest hq =>
      split at h2
      next hbt =>
        exact ⟨b2, h2, rfl⟩
      next batch hbt =>
        have hbt' : repoGet st task.batch_id = some batch := hbt
        have hkeyb : batch.batch_id = task.batch_id := hwf _ _ hbt'
        split at h2
        · -- PROCESS_BATCH
          split at h2
          next artifacts hpr =>
            rcases repoGet_repoSave_cases _ _ _ _ h2 with ⟨hid, hb2⟩ | ⟨hid, h2a⟩
            · subst hb2
              refine ⟨batch, ?_, rfl⟩
              have hidt : id = task.batch_id := hid.trans hkeyb
              rw [hidt]
              exact hbt'
            · rcases repoGet_repoSave_cases _ _ _ _ h2a with ⟨hid2, hb2⟩ | ⟨hid2, h2b⟩
              · subst hb2
                refine ⟨batch, ?_, rfl⟩
                have hidt : id = task.batch_id := hid2.trans hkeyb
                rw [hidt]
                exact hbt'
              · exact ⟨b2, h2b, rfl⟩
          next msg hpr =>
            split at h2
            next bf hbf =>
              have hbff : bf.review_rows = batch.review_rows ∧
                  bf.batch_id = batch.batch_id := by
                rcases repoGet_repoSave_cases _ _ _ _ hbf with ⟨_, hb⟩ | ⟨_, hb⟩
                · subst hb
                  exact ⟨rfl, rfl⟩
                · have hb' : repoGet st task.batch_id = some bf := hb
                  rw [hbt'] at hb'
                  cases hb'
                  exact ⟨rfl, rfl⟩
              rcases repoGet_repoSave_cases _ _ _ _ h2 with ⟨hid, hb2⟩ | ⟨hid, h2a⟩
              · subst hb2
                refine ⟨batch, ?_, hbff.1⟩
                have hidt : id = task.batch_id := (hid.trans hbff.2).trans hkeyb
                rw [hidt]
                exact hbt'
              · rcases repoGet_repoSave_cases _ _ _ _ h2a with ⟨hid2, hb2⟩ | ⟨hid2, h2b⟩
                · subst hb2
                  refine ⟨batch, ?_, rfl⟩
                  have hidt : id = task.batch_id := hid2.trans hkeyb
                  rw [hidt]
                  exact hbt'
                · exact ⟨b2, h2b, rfl⟩
            next hbf =>
              rw [repoGet_repoSave, if_pos hkeyb.symm] at hbf
              cases hbf
        · -- MERGE_BATCH
          split at h2
          next output hmr =>
            rcases repoGet_repoSave_cases _ _ _ _ h2 with ⟨hid, hb2⟩ | ⟨hid, h2a⟩
            · subst hb2
              refine ⟨batch, ?_, rfl⟩
              have hidt : id = task.batch_id := hid.trans hkeyb
              rw [hidt]
              exact hbt'
            · exact ⟨b2, h2a, rfl⟩
          next msg hmr =>
            split at h2
            next bf hbf =>
              have hbf' : repoGet st task.batch_id = some bf := hbf
              rw [hbt'] at hbf'
              cases hbf'
              rcases repoGet_repoSave_cases _ _ _ _ h2 with ⟨hid, hb2⟩ | ⟨hid, h2a⟩
              · subst hb2
                refine ⟨batch, ?_, rfl⟩
                have hidt : id = task.batch_id := hid.trans hkeyb
                rw [hidt]
                exact hbt'
              · exact ⟨b2, h2a, rfl⟩
            next hbf =>
              have hbf' : repoGet st task.batch_id = none := hbf
              rw [hbt'] at hbf'
              cases hbf'
  · intro cfg outcomes task rest batch m hq htt hbt hbe hm
    have hkeyb : batch.batch_id = task.batch_id := hwf _ _ hbt
    have hb0 : assocGet st.repo task.batch_id = some batch := hbt
    have hok : backend.process { batch with status := .running } = .ok m := by
      rw [hbe, hm]
    have hmEq : m =
        [("artifacts",
           .obj [("result_json_path",
                   .str (outDir cfg { batch with status := .running } ++ "/results.json")),
                 ("review_json_path",
                   .str (outDir cfg { batch with status := .running } ++ "/review_rows.json")),
                 ("archive_root",
                   .str (outDir cfg { batch with status := .running } ++ "/archive"))]),
         ("review_rows",
           .arr ((gatherRows cfg { batch with status := .running } outcomes).map
             reviewEntry))] := by
      rw [local_backend_process, process_batch_aggregate] at hm
      cases hE : (failEntries (gatherRows cfg { batch with status := .running }
          outcomes)).isEmpty with
      | false =>
          rw [hE] at hm
          simp at hm
      | true =>
          rw [hE] at hm
          simp at hm
          exact hm.symm
    subst hmEq
    rw [hkeyb] at hok
    refine ⟨_, _, rfl, ?_, ?_, ?_, rfl⟩
    · simp only [run_once, hq, repoGet, repoSave, hb0, htt, hkeyb, hok,
        assocGet_assocSet_self]
    · simp [dictUpdate, dictGet, dictSet, assocGet_assocSet_self,
        assocGet_assocSet_ne _ _ _ _
          (by decide : ("artifacts" : String) ≠ "review_rows")]
    · simp [dictUpdate, dictGet, dictSet, assocGet_assocSet_self]

/-- Closed instance of `C10_worker_frame`: on the queued fixture, a
successful PROCESS_BATCH leaves `review_rows` as it was and nests the
backend mapping under the artifact keys `"artifacts"` and `"review_rows"`. -/
theorem C10_worker_frame_witness :
    (∃ b, repoGet queuedStateFix "b1" = some b ∧
      ({ queuedBatchFix with
          artifacts := dictUpdate queuedBatchFix.artifacts
            [("artifacts", JVal.obj []), ("review_rows", JVal.arr [])]
          status := BatchStatus.review_ready
          error := none } : BatchRecord).review_rows = b.review_rows) ∧
    (∃ A R, procResultFix = [("artifacts", A), ("review_rows", R)] ∧
      dictGet (dictUpdate queuedBatchFix.artifacts procResultFix) "artifacts" = some A ∧
      dictGet (dictUpdate queuedBatchFix.artifacts procResultFix) "review_rows" = some R) := by
  have hwf : ∀ id b, repoGet queuedStateFix id = some b → b.batch_id = id := by
    intro id b h
    by_cases hb1 : ("b1" : String) = id
    · subst hb1
      have h2 : some queuedBatchFix = some b := h
      cases h2
      rfl
    · have h2 : (none : Option BatchRecord) = some b := by
        have : repoGet queuedStateFix id =
            (if "b1" = id then some queuedBatchFix else none) := rfl
        rw [this, if_neg hb1] at h
        exact h.symm ▸ rfl
      cases h2
  have h := C10_worker_frame okBackendFix queuedStateFix hwf
  have h2 := C10_worker_frame
    ⟨fun bb => local_backend_process {} bb okOutcomesFix,
     fun _ _ => Except.error "unused"⟩ queuedStateFix hwf
  constructor
  · exact h.1 "b1" _ rfl
  · obtain ⟨A, R, hAR, _, hg1, hg2, _⟩ := h2.2 {} okOutcomesFix
      { task_id := "t1", batch_id := "b1", task_type := .process_batch } []
      queuedBatchFix procResultFix rfl rfl rfl rfl rfl
    exact ⟨A, R, hAR, hg1, hg2⟩

/-!
## C9 — save_review idempotence
-/

theorem assocGet_double_set_fst {α : Type} (d : List (String × α)) (t s : String)
    (c : α) : assocGet (assocSet (assocSet d t c) s c) t = some c := by
  by_cases hts : t = s
  · subst hts
    exact assocGet_assocSet_self _ _ _
  · rw [assocGet_assocSet_ne _ _ _ _ hts]
    exact assocGet_assocSet_self _ _ _

/-- C9: `save_review` is idempotent — after a successful call, repeating the
call with the same row list returns the identical state and record: the
stored `review_rows` are the same and both the working-file and the
submission-snapshot artifacts hold identical content at the same paths. -/
theorem C9_save_review_idempotent (st : SysState) (batchId : String) (rows : List JVal)
    (st1 : SysState) (b1 : BatchRecord)
    (h1 : save_review st batchId rows = (st1, .ok b1))
    (hkey : b1.batch_id = batchId) :
    save_review st1 batchId rows = (st1, .ok b1) ∧
    repoGet st1 batchId = some b1 ∧
    assocGet st1.fs (reviewTargetPath b1) = some (jsonOfRows b1.review_rows) ∧
    assocGet st1.fs (dirName (reviewTargetPath b1) ++ "/review_rows_submitted.json") =
      some (jsonOfRows b1.review_rows) := by
  simp only [save_review] at h1
  split at h1
  next hbm =>
    exact absurd (congrArg Prod.snd h1) (by simp)
  next batch hbm =>
    split at h1
    next e hnm =>
      exact absurd (congrArg Prod.snd h1) (by simp)
    next n hnm =>
      injection h1 with hst hb1
      injection hb1 with hb
      subst hb
      have hg2 : repoGet st1 batchId = some { batch with review_rows := n } := by
        rw [← hst, repoGet_repoSave, if_pos hkey.symm]
      have hw1 : assocGet st1.fs
          (reviewTargetPath { batch with review_rows := n }) =
          some (jsonOfRows n) := by
        rw [← hst]
        exact assocGet_double_set_fst st.fs _ _ _
      have hw2 : assocGet st1.fs
          (dirName (reviewTargetPath { batch with review_rows := n }) ++
            "/review_rows_submitted.json") = some (jsonOfRows n) := by
        rw [← hst]
        exact assocGet_assocSet_self _ _ _
      have hr1 : assocGet st1.repo
          ({ batch with review_rows := n } : BatchRecord).batch_id =
          some { batch with review_rows := n } := by
        have hg2' := hg2
        rw [← hkey] at hg2'
        exact hg2'
      have hnm2 : normalize_review_rows rows
          ({ batch with review_rows := n } : BatchRecord).run_date = .ok n := hnm
      have hset1 := assocSet_eq_self _ _ _ hw1
      have hset2 := assocSet_eq_self _ _ _ hw2
      have hset3 := assocSet_eq_self _ _ _ hr1
      refine ⟨?_, hg2, hw1, hw2⟩
      simp only [save_review, hg2, hnm, hnm2, fsWrite, repoSave, hset1, hset2, hset3]

/-!
## C5 — review-row normalization (helper lemmas)
-/

theorem pyOr_falsy (a : Option JVal) (b : JVal) (h : pyTruthyOpt a = false) :
    pyOr a b = b := by
  cases a with
  | none => rfl
  | some v =>
      simp only [pyTruthyOpt] at h
      simp [pyOr, h]

theorem normalizeRowsFrom_ok_spec (rd : Option String) (rows : List JVal) :
    ∀ (outs : List JVal) (idx : Nat),
      normalizeRowsFrom rd idx rows = .ok outs →
      outs.length = rows.length ∧
      ∀ i (hi : i < rows.length) (ho : i < outs.length),
        normalizeRow rd (idx + i) (rows.get ⟨i, hi⟩) = .ok (outs.get ⟨i, ho⟩) := by
  induction rows with
  | nil =>
      intro outs idx h
      simp only [normalizeRowsFrom] at h
      cases h
      exact ⟨rfl, fun i hi ho => absurd hi (by simp)⟩
  | cons r rest ih =>
      intro outs idx h
      simp only [normalizeRowsFrom] at h
      split at h
      next e he => exact Except.noConfusion h
      next r' hr =>
        split at h
        next e he => exact Except.noConfusion h
        next rs hrs =>
          cases h
          obtain ⟨hlen, hall⟩ := ih rs (idx + 1) hrs
          refine ⟨by simp [hlen], ?_⟩
          intro i hi ho
          cases i with
          | zero => simpa using hr
          | succ j =>
              have hj := hall j (by simpa using Nat.lt_of_succ_lt_succ hi)
                (by simpa using Nat.lt_of_succ_lt_succ ho)
              have hidx : idx + (j + 1) = idx + 1 + j := by omega
              rw [hidx]
              simpa using hj

theorem normalizeRowsFrom_err (rd : Option String) (rows : List JVal) :
    ∀ (idx i : Nat) (hi : i < rows.length) (e : String),
      normalizeRow rd (idx + i) (rows.get ⟨i, hi⟩) = .error e →
      ∃ e2, normalizeRowsFrom rd idx rows = .error e2 := by
  induction rows with
  | nil =>
      intro idx i hi e
      exact absurd hi (by simp)
  | cons r rest ih =>
      intro idx i hi e herr
      cases i with
      | zero =>
          simp only [Nat.add_zero, List.get] at herr
          exact ⟨e, by simp [normalizeRowsFrom, herr]⟩
      | succ j =>
          cases hr : normalizeRow rd idx r with
          | error e0 => exact ⟨e0, by simp [normalizeRowsFrom, hr]⟩
          | ok r' =>
              have hidx : idx + (j + 1) = idx + 1 + j := by omega
              rw [hidx] at herr
              obtain ⟨e2, h2⟩ := ih (idx + 1) j
                (by simpa using Nat.lt_of_succ_lt_succ hi) e (by simpa using herr)
              exact ⟨e2, by simp [normalizeRowsFrom, hr, h2]⟩

/-- C5: review normalization (i) maps submitted rows positionally through
`normalizeRow` with 1-based indices; (ii) assigns a `row-%04d` id from the
position when the submitted id is absent or falsy; (iii) one rejected row
fails the whole submission, and `save_review` then returns the validation
error leaving the state untouched; (iv) a category outside
bar/zbon/office (after strip/lower), an empty filename, a missing or
non-object `result`, and a `result` with no non-empty field besides
`run_date` are each rejected with the code's message; (v) `result.run_date`
is backfilled from the batch's run date when absent or empty; (vi) accepted
rows are emitted in the canonical shape
`\x7brow_id, category, filename, result, score, preview_path\x7d` with a
valid category and non-empty filename. -/
theorem C5_review_normalization :
    (∀ (rd : Option String) (rows outs : List JVal),
      normalize_review_rows rows rd = .ok outs →
      outs.length = rows.length ∧
      ∀ i (hi : i < rows.length) (ho : i < outs.length),
        normalizeRow rd (1 + i) (rows.get ⟨i, hi⟩) = .ok (outs.get ⟨i, ho⟩)) ∧
    (∀ (rd : Option String) (idx : Nat) (fields : List (String × JVal)) (out : JVal),
      pyTruthyOpt (dictGet fields "row_id") = false →
      normalizeRow rd idx (.obj fields) = .ok out →
      objGet out "row_id" = some (.str (rowIdFor idx))) ∧
    (∀ (rd : Option String) (rows : List JVal) (i : Nat) (hi : i < rows.length)
      (e : String),
      normalizeRow rd (1 + i) (rows.get ⟨i, hi⟩) = .error e →
      ∃ e2, normalize_review_rows rows rd = .error e2) ∧
    (∀ (st : SysState) (batchId : String) (rows : List JVal) (batch : BatchRecord)
      (e : String),
      repoGet st batchId = some batch →
      normalize_review_rows rows batch.run_date = .error e →
      save_review st batchId rows = (st, .error e)) ∧
    (∀ (rd : Option String) (idx : Nat) (fields : List (String × JVal)),
      ((pyLower (pyStrip (pyStr (pyOr (dictGet fields "category") (.str "")))) == "bar" ||
        pyLower (pyStrip (pyStr (pyOr (dictGet fields "category") (.str "")))) == "zbon" ||
        pyLower (pyStrip (pyStr (pyOr (dictGet fields "category") (.str "")))) == "office")
          = false →
        normalizeRow rd idx (.obj fields) =
          .error ("row[" ++ toString idx ++ "] category must be one of bar/zbon/office")) ∧
      ((pyLower (pyStrip (pyStr (pyOr (dictGet fields "category") (.str "")))) == "bar" ||
        pyLower (pyStrip (pyStr (pyOr (dictGet fields "category") (.str "")))) == "zbon" ||
        pyLower (pyStrip (pyStr (pyOr (dictGet fields "category") (.str "")))) == "office")
          = true →
        pyStrip (pyStr (pyOr (dictGet fields "filename") (.str ""))) = "" →
        normalizeRow rd idx (.obj fields) =
          .error ("row[" ++ toString idx ++ "] filename is required")) ∧
      ((pyLower (pyStrip (pyStr (pyOr (dictGet fields "category") (.str "")))) == "bar" ||
        pyLower (pyStrip (pyStr (pyOr (dictGet fields "category") (.str "")))) == "zbon" ||
        pyLower (pyStrip (pyStr (pyOr (dictGet fields "category") (.str "")))) == "office")
          = true →
        pyStrip (pyStr (pyOr (dictGet fields "filename") (.str ""))) ≠ "" →
        dictGet fields "result" = none →
        normalizeRow rd idx (.obj fields) =
          .error ("row[" ++ toString idx ++
            "] result must be an object in canonical shape " ++
            "\x7brow_id,category,filename,result,score,preview_path\x7d")) ∧
      ((pyLower (pyStrip (pyStr (pyOr (dictGet fields "category") (.str "")))) == "bar" ||
        pyLower (pyStrip (pyStr (pyOr (dictGet fields "category") (.str "")))) == "zbon" ||
        pyLower (pyStrip (pyStr (pyOr (dictGet fields "category") (.str "")))) == "office")
          = true →
        pyStrip (pyStr (pyOr (dictGet fields "filename") (.str ""))) ≠ "" →
        ∀ v, dictGet fields "result" = some v → (∀ flds, v ≠ .obj flds) →
        normalizeRow rd idx (.obj fields) =
          .error ("row[" ++ toString idx ++
            "] result must be an object in canonical shape " ++
            "\x7brow_id,category,filename,result,score,preview_path\x7d")) ∧
      ((pyLower (pyStrip (pyStr (pyOr (dictGet fields "category") (.str "")))) == "bar" ||
        pyLower (pyStrip (pyStr (pyOr (dictGet fields "category") (.str "")))) == "zbon" ||
        pyLower (pyStrip (pyStr (pyOr (dictGet fields "category") (.str "")))) == "office")
          = true →
        pyStrip (pyStr (pyOr (dictGet fields "filename") (.str ""))) ≠ "" →
        ∀ result0, dictGet fields "result" = some (.obj result0) →
        meaningfulFields (backfillRunDate rd result0) = [] →
        normalizeRow rd idx (.obj fields) =
          .error ("row[" ++ toString idx ++
            "] result must include non-empty business fields in canonical shape " ++
            "\x7brow_id,category,filename,result,score,preview_path\x7d"))) ∧
    (∀ (rd : String) (idx : Nat) (fields result0 : List (String × JVal)) (out : JVal),
      rd ≠ "" →
      dictGet fields "result" = some (.obj result0) →
      isEmptyLike (dictGet result0 "run_date") = true →
      normalizeRow (some rd) idx (.obj fields) = .ok out →
      ∃ res, objGet out "result" = some (.obj res) ∧
        dictGet res "run_date" = some (.str rd)) ∧
    (∀ (rd : Option String) (idx : Nat) (row out : JVal),
      normalizeRow rd idx row = .ok out →
      ∃ rid cat fn res sc pv,
        out = .obj [("row_id", .str rid), ("category", .str cat),
          ("filename", .str fn), ("result", .obj res), ("score", .obj sc),
          ("preview_path", pv)] ∧
        (cat = "bar" ∨ cat = "zbon" ∨ cat = "office") ∧ fn ≠ "") := by
  refine ⟨?_, ?_, ?_, ?_, ?_, ?_, ?_⟩
  · intro rd rows outs h
    exact normalizeRowsFrom_ok_spec rd rows outs 1 h
  · intro rd idx fields out hfalsy hok
    simp only [normalizeRow] at hok
    rw [show pyOr (dictGet fields "row_id") (.str (rowIdFor idx)) =
      .str (rowIdFor idx) from pyOr_falsy _ _ hfalsy] at hok
    split at hok
    · exact Except.noConfusion hok
    split at hok
    · exact Except.noConfusion hok
    split at hok
    next result0 =>
      split at hok
      · exact Except.noConfusion hok
      · cases hok
        simp [objGet, dictGet, assocGet, pyStr]
    next hne =>
      exact Except.noConfusion hok
  · intro rd rows i hi e herr
    exact normalizeRowsFrom_err rd rows 1 i hi e herr
  · intro st batchId rows batch e hb herr
    simp only [save_review, hb, herr]
  · intro rd idx fields
    refine ⟨?_, ?_, ?_, ?_, ?_⟩
    · intro hcat
      simp [normalizeRow, hcat]
    · intro hcat hfn
      simp [normalizeRow, hcat, hfn]
    · intro hcat hfn hres
      have hfnb : (pyStrip (pyStr (pyOr (dictGet fields "filename") (.str ""))) == "")
          = false := by
        simp [hfn]
      simp [normalizeRow, hcat, hfnb, hres]
    · intro hcat hfn v hres hno
      have hfnb : (pyStrip (pyStr (pyOr (dictGet fields "filename") (.str ""))) == "")
          = false := by
        simp [hfn]
      cases v with
      | obj flds => exact absurd rfl (hno flds)
      | null => simp [normalizeRow, hcat, hfnb, hres]
      | bool b => simp [normalizeRow, hcat, hfnb, hres]
      | num n => simp [normalizeRow, hcat, hfnb, hres]
      | str s => simp [normalizeRow, hcat, hfnb, hres]
      | arr xs => simp [normalizeRow, hcat, hfnb, hres]
    · intro hcat hfn result0 hres hmean
      have hfnb : (pyStrip (pyStr (pyOr (dictGet fields "filename") (.str ""))) == "")
          = false := by
        simp [hfn]
      simp [normalizeRow, hcat, hfnb, hres, hmean]
  · intro rd idx fields result0 out hrd hres hempty hok
    have hbf : backfillRunDate (some rd) result0 =
        dictSet result0 "run_date" (.str rd) := by
      simp [backfillRunDate, hempty, bne_iff_ne.mpr hrd]
    simp only [normalizeRow, hres, hbf] at hok
    split at hok
    · exact Except.noConfusion hok
    split at hok
    · exact Except.noConfusion hok
    split at hok
    · exact Except.noConfusion hok
    cases hok
    refine ⟨dictSet result0 "run_date" (.str rd), ?_, ?_⟩
    · simp [objGet, dictGet, assocGet]
    · exact assocGet_assocSet_self result0 "run_date" (.str rd)
  · intro rd idx row out hok
    cases row with
    | obj fields =>
        simp only [normalizeRow] at hok
        split at hok
        next hcat => exact Except.noConfusion hok
        next hcat =>
          split at hok
          next hfn => exact Except.noConfusion hok
          next hfn =>
            split at hok
            next result0 =>
              split at hok
              · exact Except.noConfusion hok
              · cases hok
                refine ⟨_, _, _, _, _, _, rfl, ?_, ?_⟩
                · have hcat2 : (pyLower (pyStrip (pyStr (pyOr (dictGet fields "category")
                      (.str "")))) == "bar" ||
                      pyLower (pyStrip (pyStr (pyOr (dictGet fields "category")
                        (.str "")))) == "zbon" ||
                      pyLower (pyStrip (pyStr (pyOr (dictGet fields "category")
                        (.str "")))) == "office") = true := by
                    revert hcat
                    cases h : (pyLower (pyStrip (pyStr (pyOr (dictGet fields "category")
                        (.str "")))) == "bar" ||
                        pyLower (pyStrip (pyStr (pyOr (dictGet fields "category")
                          (.str "")))) == "zbon" ||
                        pyLower (pyStrip (pyStr (pyOr (dictGet fields "category")
                          (.str "")))) == "office") <;> simp
                  simpa [Bool.or_eq_true, beq_iff_eq, or_assoc] using hcat2
                · intro hfn2
                  apply hfn
                  simp [hfn2]
            next hne =>
              exact Except.noConfusion hok
    | null => exact Except.noConfusion hok
    | bool b => exact Except.noConfusion hok
    | num n => exact Except.noConfusion hok
    | str s => exact Except.noConfusion hok
    | arr xs => exact Except.noConfusion hok

/-- Closed instance of `C5_review_normalization`: a row without an id at
position 3 gets `row-0003` and a backfilled run date; a row with an unknown
category fails the whole submission, leaving the state untouched. -/
theorem C5_review_normalization_witness :
    objGet normNoIdOutFix "row_id" = some (.str (rowIdFor 3)) ∧
    save_review staleErrState "b1" [badCatRowFix] =
      (staleErrState, .error "row[1] category must be one of bar/zbon/office") ∧
    (∃ res, objGet normNoIdOutFix "result" = some (.obj res) ∧
      dictGet res "run_date" = some (.str "04/02/2026")) := by
  have h := C5_review_normalization
  refine ⟨?_, ?_, ?_⟩
  · exact h.2.1 (some "04/02/2026") 3 rowNoIdFieldsFix normNoIdOutFix rfl rfl
  · exact h.2.2.2.1 staleErrState "b1" [badCatRowFix] staleErrBatch _ rfl rfl
  · exact h.2.2.2.2.2.1 "04/02/2026" 3 rowNoIdFieldsFix
      [("brutto", .str "1")] normNoIdOutFix (by decide) rfl rfl rfl

/-- Closed instance of `C9_save_review_idempotent`: submitting the canonical
fixture row twice returns the identical state and record the second time. -/
theorem C9_save_review_idempotent_witness :
    save_review (save_review staleErrState "b1" [rowFix]).1 "b1" [rowFix] =
      ((save_review staleErrState "b1" [rowFix]).1, .ok staleErrBatch) :=
  (C9_save_review_idempotent staleErrState "b1" [rowFix]
    (save_review staleErrState "b1" [rowFix]).1 staleErrBatch rfl rfl).1

/-!
## C3 — batch status state machine
-/

theorem codeEdge_to_running (a : BatchStatus) : codeEdge a .running = true := by
  cases a <;> rfl

theorem codeEdge_to_merging (a : BatchStatus) : codeEdge a .merging = true := by
  cases a <;> rfl

theorem codeEdge_to_merged (a : BatchStatus) : codeEdge a .merged = true := by
  cases a <;> rfl

theorem codeEdge_to_failed (a : BatchStatus) : codeEdge a .failed = true := by
  cases a <;> rfl

/-- The two-step execution create → request_merge, with its emitted events. -/
theorem traceReach : ReachesEv initState
    (([] ++ []) ++ [⟨"b1", BatchStatus.queued, BatchStatus.merging⟩]) traceSt2 :=
  ReachesEv.tail _ _ _ _ _
    (ReachesEv.tail _ _ _ _ _ (ReachesEv.refl _)
      (StepEv.create initState reqFix "b1" "t1" .noFault rfl))
    (StepEv.requestMerge traceSt1 "b1" traceMergeReq "t2")

/-- C3 counterexample: the claim restricts observed status changes to the
chain QUEUED → RUNNING → REVIEW_READY → MERGING → MERGED plus
any-state → FAILED.  The reachable two-step execution `traceReach` — create a
batch, then immediately request a merge with an explicit monthly source
before the worker ever runs — writes the edge QUEUED → MERGING, which is
outside that edge set (`request_merge` checks no status precondition). -/
theorem C3_counterexample :
    ¬(∀ (evs : List Event) (stf : SysState), ReachesEv initState evs stf →
        ∀ e ∈ evs, e.src ≠ e.dst → specEdge e.src e.dst = true) := by
  intro hclaim
  have hmem : (⟨"b1", BatchStatus.queued, BatchStatus.merging⟩ : Event) ∈
      (([] ++ []) ++ [(⟨"b1", BatchStatus.queued, BatchStatus.merging⟩ : Event)]) := by
    simp
  have := hclaim _ _ traceReach _ hmem (by decide)
  exact absurd this (by decide)

/-- C3 (amended): every status write of every reachable execution follows one
of the edges the code guarantees: any-state → RUNNING (worker picking up a
PROCESS_BATCH task), RUNNING → REVIEW_READY, any-state → MERGING
(`request_merge`, which checks no status precondition), any-state → MERGED
(MERGE_BATCH success), and any-state → FAILED; QUEUED is never re-entered.
In particular MERGED and FAILED are not terminal — a later `request_merge`
or MERGE_BATCH task moves them — but edges such as REVIEW_READY → QUEUED
remain impossible. -/
theorem C3_status_edges (evs : List Event) (stf : SysState)
    (h : ReachesEv initState evs stf) :
    ∀ e ∈ evs, codeEdge e.src e.dst = true := by
  induction h with
  | refl =>
      intro e he
      exact absurd he (by simp)
  | tail evs₁ st₂ evs₂ st₃ h₁ h₂ ih =>
      intro e he
      rw [List.mem_append] at he
      cases he with
      | inl hin => exact ih e hin
      | inr hin =>
          cases h₂ with
          | create req bId tId fault hfresh => exact absurd hin (by simp)
          | review bId rows => exact absurd hin (by simp)
          | mergeSource bId p => exact absurd hin (by simp)
          | requestMerge bId req tId =>
              simp only [request_merge_events] at hin
              split at hin
              · exact absurd hin (by simp)
              next batch hbm =>
                split at hin
                · exact absurd hin (by simp)
                · rw [List.mem_singleton] at hin
                  subst hin
                  exact codeEdge_to_merging _
          | worker backend =>
              simp only [run_once_events] at hin
              split at hin
              · exact absurd hin (by simp)
              next task rest =>
                split at hin
                · exact absurd hin (by simp)
                next batch hbm =>
                  split at hin
                  · -- PROCESS_BATCH events
                    rw [List.mem_cons] at hin
                    cases hin with
                    | inl hh =>
                        subst hh
                        exact codeEdge_to_running _
                    | inr hh =>
                        split at hh
                        · rw [List.mem_singleton] at hh
                          subst hh
                          rfl
                        · rw [List.mem_singleton] at hh
                          subst hh
                          rfl
                  · -- MERGE_BATCH events
                    split at hin
                    · rw [List.mem_singleton] at hin
                      subst hin
                      exact codeEdge_to_merged _
                    · rw [List.mem_singleton] at hin
                      subst hin
                      exact codeEdge_to_failed _

/-- Closed instance of `C3_status_edges` at the concrete two-step trace:
its QUEUED → MERGING write is one of the code's edges. -/
theorem C3_status_edges_witness :
    codeEdge BatchStatus.queued BatchStatus.merging = true :=
  C3_status_edges _ _ traceReach ⟨"b1", BatchStatus.queued, BatchStatus.merging⟩
    (by simp)

end BillsAnalysis
